import Mathlib

/-!
Verification development for the `vmware_guest_rdm` Ansible module
(`lib/ansible/modules/cloud/vmware/vmware_guest_rdm.py`).

The module reconciles a VM's raw-device-mapping (RDM) disks against a
requested set of LUN WWIDs: state `present` attaches missing RDM disks on a
caller-supplied list of SCSI controller buses (creating missing controllers),
state `absent` detaches RDM disks matching the requested WWIDs.

The shallow embedding below follows the Python source function by function:
  - `strFind`/`lowerStr` model Python `str.find(...) >= 0` and `.lower()`;
  - `vm_get_ctls`, `ctl_check_types_fail`, `ctl_create_new` model controller
    discovery, validation and creation;
  - `check_maximums` models the per-controller slot ceiling;
  - `get_rdm_info` models occupancy-map construction plus the capacity check;
  - `scanSlots`/`create_rdm` model the free-slot search (the Python code
    breaks out of a nested loop via a `FreeBusFound` exception);
  - `configure_present`/`configure_absent` model the per-WWID attach/detach
    loops, including LUN resolution by canonical name and the regex-derived
    RDM file-name suffix;
  - `reconfigure_vm` models the whole pass, recording every configuration
    update submitted to the remote API in `RunOut.subs`.
Python exceptions that abort the module (`KeyError`, `IndexError`,
`fail_json`) are modelled with `Except String`.
-/

namespace Rdm

/-- Python `str.lower()` (ASCII case folding suffices for the data involved). -/
def lowerStr (s : String) : String := String.mk (s.data.map Char.toLower)

/-- Does `pat` occur at the head of `l`? -/
def leadEq : List Char → List Char → Bool
  | [], _ => true
  | _ :: _, [] => false
  | a :: as, b :: bs => a == b && leadEq as bs

/-- Does `need` occur as a contiguous subsequence of `hay`? -/
def hasSeq (need : List Char) : List Char → Bool
  | [] => need.isEmpty
  | h :: tl => leadEq need (h :: tl) || hasSeq need tl

/-- Python `hay.find(need) >= 0`: `need` is a substring of `hay`. -/
def strFind (hay need : String) : Bool := hasSeq need.data hay.data

/-- Python `s.replace(pat, rep)` over character lists (all occurrences,
left to right, non-overlapping); `pat` is assumed nonempty at call sites. -/
def replaceChars (pat rep : List Char) : List Char → List Char
  | [] => []
  | h :: tl =>
    if leadEq pat (h :: tl) && !pat.isEmpty then
      rep ++ replaceChars pat rep (tl.drop (pat.length - 1))
    else
      h :: replaceChars pat rep tl
termination_by l => l.length
decreasing_by
  · simp only [List.length_drop, List.length_cons]; omega
  · simp only [List.length_cons]; omega

/-- Python `s.replace(pat, rep)` on strings. -/
def strReplace (s pat rep : String) : String :=
  String.mk (replaceChars pat.data rep.data s.data)

/-- Association-list lookup, modelling Python `d[k]` read access: the value
of the first pair whose key matches. -/
def assocGet [BEq α] (l : List (α × β)) (k : α) : Option β :=
  match l with
  | [] => none
  | p :: rest => if p.1 == k then some p.2 else assocGet rest k

/-- Association-list update, modelling Python `d[k] = v`. -/
def assocSet [BEq α] (l : List (α × β)) (k : α) (v : β) : List (α × β) :=
  if l.any (fun p => p.1 == k) then
    l.map (fun p => if p.1 == k then (k, v) else p)
  else
    l ++ [(k, v)]

/-- `disk_units` of the module: bus number to the set of occupied unit
numbers on that bus (sets modelled as lists; only membership matters). -/
abbrev SlotMap := List (Nat × List Nat)

/-- Python `disk_units[b].add(u)`: raises `KeyError` when `b` is missing. -/
def slotAddE (du : SlotMap) (b : Nat) (u : Nat) : Except String SlotMap :=
  if du.any (fun p => p.1 == b) then
    .ok (du.map (fun p => if p.1 == b then (p.1, u :: p.2) else p))
  else
    .error "KeyError"

/-- Pure form of `slotAddE` for stating results when the key is present. -/
def slotAdd (du : SlotMap) (b : Nat) (u : Nat) : SlotMap :=
  du.map (fun p => if p.1 == b then (p.1, u :: p.2) else p)

/-- A host LUN record (`scsiLun` entry of the VM host). -/
structure Lun where
  canonicalName : String
  uuid : String
  deviceName : String
deriving DecidableEq

/-- An attached RDM disk (a device whose backing is
`RawDiskMappingVer1BackingInfo`). -/
structure RdmDisk where
  key : Int
  controllerKey : Int
  unitNumber : Nat
  lunUuid : String
deriving DecidableEq

/-- A SCSI controller device of the VM; `kind` is
`str(type(device).__name__).lower().replace("vim.vm.device.", "")`. -/
structure Controller where
  busNumber : Nat
  key : Int
  kind : String
deriving DecidableEq

/-- The VM-side state the module reads and mutates. -/
structure VmState where
  controllers : List Controller
  disks : List RdmDisk
  hwVersion : Nat
  vmPathName : String
deriving DecidableEq

/-- The `state` module parameter. -/
inductive RdmState | present | absent
deriving DecidableEq

/-- The `rdm_controller_type` module parameter (validated choices). -/
inductive CtlType | paravirtual | lsilogic | buslogic | lsilogicsas
deriving DecidableEq

/-- The parameter's literal string value. -/
def CtlType.str : CtlType → String
  | .paravirtual => "paravirtual"
  | .lsilogic => "lsilogic"
  | .buslogic => "buslogic"
  | .lsilogicsas => "lsilogicsas"

/-- Lowercased device class name created by `create_scsi_controller_bus`
for each controller type. -/
def CtlType.kindName : CtlType → String
  | .paravirtual => "paravirtualscsicontroller"
  | .lsilogic => "virtuallsilogiccontroller"
  | .buslogic => "virtualbuslogiccontroller"
  | .lsilogicsas => "virtuallsilogicsascontroller"

/-- Validated module parameters. -/
structure Params where
  state : RdmState
  ctlType : CtlType
  ctlList : List Nat
  rdmDisk : List String
deriving DecidableEq

/-- One entry of a `vim.vm.ConfigSpec.deviceChange` list. -/
inductive DeviceOp
  | addController (kind : String) (bus : Nat)
  | addDisk (specKey ctlKey : Int) (unit : Nat) (lunUuid deviceName fileName : String)
  | removeDisk (key ctlKey : Int) (unit : Nat)
deriving DecidableEq

/-- `check_maximums`: 64 slots for a paravirtual controller on hardware
version 14 or newer, 15 otherwise. -/
def check_maximums (hwVersion : Nat) (t : CtlType) : Nat :=
  if 14 ≤ hwVersion ∧ t = CtlType.paravirtual then 64 else 15

/-- The three dictionaries built by `vm_get_ctls`. -/
structure CtlInv where
  slotKey : List (Nat × Int)
  keySlot : List (Int × Nat)
  units : List (Nat × String)
deriving DecidableEq

/-- `vm_get_ctls`: index the VM's SCSI controllers by bus and by key. -/
def vm_get_ctls (ctls : List Controller) : CtlInv :=
  ctls.foldl
    (fun inv c =>
      ⟨assocSet inv.slotKey c.busNumber c.key,
       assocSet inv.keySlot c.key c.busNumber,
       assocSet inv.units c.busNumber c.kind⟩)
    ⟨[], [], []⟩

/-- The `ctl_slot_key` component of the inventory fold, in isolation. -/
def skFold (ctls : List Controller) (acc : List (Nat × Int)) : List (Nat × Int) :=
  ctls.foldl (fun a c => assocSet a c.busNumber c.key) acc

/-- The `ctl_key_slot` component of the inventory fold, in isolation. -/
def ksFold (ctls : List Controller) (acc : List (Int × Nat)) : List (Int × Nat) :=
  ctls.foldl (fun a c => assocSet a c.key c.busNumber) acc

/-- The `ctl_units` component of the inventory fold, in isolation. -/
def unFold (ctls : List Controller) (acc : List (Nat × String)) : List (Nat × String) :=
  ctls.foldl (fun a c => assocSet a c.busNumber c.kind) acc

/-- Error message of `ctl_check_types`. -/
def ctlTypeMsg : String :=
  "VM has controller of wrong type already. You must remove it manually, change type or select another before proceed."

/-- `ctl_check_types` fails iff some inventoried controller sits on an
allowed bus and the requested type string is not a substring of its kind. -/
def ctl_check_types_fail (units : List (Nat × String)) (search : String)
    (ctlList : List Nat) : Bool :=
  units.any (fun p => ctlList.contains p.1 && !(strFind p.2 search))

/-- `ctl_create_new`: one add-controller spec per allowed bus with no
existing controller (both the inventory and a direct device scan agree). -/
def ctl_create_new (t : CtlType) (ctlList : List Nat)
    (units : List (Nat × String)) (ctls : List Controller) : List DeviceOp :=
  ctlList.filterMap (fun ctl =>
    if units.any (fun p => p.1 == ctl) then none
    else if ctls.any (fun c => c.busNumber == ctl) then none
    else some (.addController t.kindName ctl))

/-- Predicate of the `wwid_presented` count in `get_rdm_info`: the disk's
LUN UUID contains some requested WWID, case-insensitively. -/
def diskMatchesSome (requested : List String) (d : RdmDisk) : Bool :=
  requested.any (fun w => strFind (lowerStr d.lunUuid) (lowerStr w))

/-- The `wwid_presented` counter of `get_rdm_info`. -/
def wwidPresentedCount (rdms : List RdmDisk) (requested : List String) : Nat :=
  rdms.countP (diskMatchesSome requested)

/-- The capacity-exceeded message of `get_rdm_info`. -/
def capacityMsg (a b : Int) : String :=
  "Disk number (" ++ toString a ++ ") bigger than number of free bays (" ++
    toString b ++ ")." ++ "Add another contoller or reduce disk quantity."

/-- The occupancy-recording loop of `get_rdm_info`: look up each disk's bus
through `ctl_key_slot` and add its unit number to that bus's set. -/
def buildDiskUnits (keySlot : List (Int × Nat)) (rdms : List RdmDisk)
    (du : SlotMap) : Except String SlotMap :=
  match rdms with
  | [] => .ok du
  | d :: rest =>
    match assocGet keySlot d.controllerKey with
    | none => .error "KeyError"
    | some b =>
      match slotAddE du b d.unitNumber with
      | .error e => .error e
      | .ok du1 => buildDiskUnits keySlot rest du1

/-- `get_rdm_info`: build the occupancy map (unit 7 pre-reserved per bus),
then fail when `used + (requested - presented)` exceeds
`ctl_max * len(ctl_list)` while moving toward `present`.
Counts are integers: Python subtraction may go negative. -/
def get_rdm_info (cmax : Nat) (state : RdmState) (ctlList : List Nat)
    (units : List (Nat × String)) (keySlot : List (Int × Nat))
    (rdms : List RdmDisk) (requested : List String) : Except String SlotMap :=
  let du0 : SlotMap := units.map (fun p => (p.1, [7]))
  match buildDiskUnits keySlot rdms du0 with
  | .error e => .error e
  | .ok du =>
    let usedDisks : Int := rdms.length
    let newDisks : Int := (requested.length : Int) - wwidPresentedCount rdms requested
    let allDisk : Int := usedDisks + newDisks
    let freeBays : Int := (cmax : Int) * ctlList.length
    if allDisk > freeBays ∧ state = RdmState.present then
      .error (capacityMsg allDisk freeBays)
    else
      .ok du

/-- `[l for l in vm_host_luns if l.canonicalName == "naa." + wwid.lower()][0]`. -/
def resolveLun (luns : List Lun) (wwid : String) : Option Lun :=
  luns.find? (fun l => l.canonicalName == "naa." ++ lowerStr wwid)

/-- `fail_json` message when a LUN is not presented to the host. -/
def lunMsg (w : String) : String := "LUN " ++ w ++ " not presented to host"

/-- Is the character in the regex class `[0-9a-z]`? -/
def isAlnumLower (c : Char) : Bool := c.isDigit || ('a' ≤ c && c ≤ 'z')

/-- Length of the maximal `[0-9a-z]` run at the head of `l`. -/
def alnumRunLen (l : List Char) : Nat := (l.takeWhile isAlnumLower).length

/-- Is `l` exactly four zeros ending at position `e`? -/
def fourZerosAt (l : List Char) (e : Nat) : Bool :=
  (l.drop (e - 4)).take 4 == ['0', '0', '0', '0']

/-- End position of the (leftmost-greedy) match of `[0-9a-z]+0000+` at the
start of `l`: the largest `e` with `5 ≤ e ≤ alnumRunLen l` such that the
four characters before `e` are zeros (backtracking takes the last run of at
least four zeros inside the alphanumeric prefix, extended maximally, with
at least one `[0-9a-z]` character consumed before it). -/
def zeroMatchEnd (l : List Char) : Option Nat :=
  (List.range (alnumRunLen l + 1)).reverse.find?
    (fun e => decide (5 ≤ e) && fourZerosAt l e)

/-- `re.split('^naa\\.[0-9a-z]+0000+', lun.canonicalName)[1]`: the remainder
of the canonical name after the matched prefix, or `IndexError` when the
pattern does not match (the split list then has a single element). -/
def computeRdmId (canonical : String) : Except String String :=
  let cs := canonical.data
  if leadEq "naa.".data cs then
    let t := cs.drop 4
    match zeroMatchEnd t with
    | some e => .ok (String.mk (t.drop e))
    | none => .error "IndexError"
  else .error "IndexError"

/-- Inner unit scan of `create_rdm`: first unit in `0..cmax` (inclusive)
not in the bus's occupied set. -/
def scanUnits (occ : List Nat) (cmax : Nat) : Option Nat :=
  (List.range (cmax + 1)).find? (fun u => !(occ.contains u))

/-- Outer scan of `create_rdm`: first allowed bus (caller-supplied order)
with a free unit; `KeyError` when a scanned bus is missing from the
occupancy map; `none` when every bus/unit combination is occupied. -/
def scanSlots (ctlList : List Nat) (cmax : Nat) (du : SlotMap) :
    Except String (Option (Nat × Nat)) :=
  match ctlList with
  | [] => .ok none
  | c :: rest =>
    match assocGet du c with
    | none => .error "KeyError"
    | some occ =>
      match scanUnits occ cmax with
      | some u => .ok (some (c, u))
      | none => scanSlots rest cmax du

/-- `create_rdm`: find a free slot, reserve it in the occupancy map, then
append the attach spec built by `create_rdm_disk` (device key
`-100 - unit`). When the nested scan finds nothing, the `FreeBusFound`
exception is never raised and the function silently does nothing. -/
def create_rdm (ctlList : List Nat) (cmax : Nat) (slotKey : List (Nat × Int))
    (du : SlotMap) (lun : Lun) (rdmFile : String) (specs : List DeviceOp)
    (changed : Bool) : Except String (SlotMap × List DeviceOp × Bool) :=
  match scanSlots ctlList cmax du with
  | .error e => .error e
  | .ok none => .ok (du, specs, changed)
  | .ok (some (c, u)) =>
    match slotAddE du c u with
    | .error e => .error e
    | .ok du1 =>
      match assocGet slotKey c with
      | none => .error "KeyError"
      | some k =>
        .ok (du1,
          specs ++ [.addDisk (-100 - (u : Int)) k u lun.uuid lun.deviceName rdmFile],
          true)

/-- The `state == 'present'` loop of `configure_rdm_disks`: resolve each
WWID to a host LUN, skip it when an attached RDM disk already has that
LUN's UUID, otherwise derive the RDM file name and call `create_rdm`. -/
def configure_present (luns : List Lun) (vmPath : String) (ctlList : List Nat)
    (cmax : Nat) (slotKey : List (Nat × Int)) (rdms : List RdmDisk)
    (requested : List String) (du : SlotMap) (specs : List DeviceOp)
    (changed : Bool) : Except String (SlotMap × List DeviceOp × Bool) :=
  match requested with
  | [] => .ok (du, specs, changed)
  | w :: rest =>
    match resolveLun luns w with
    | none => .error (lunMsg w)
    | some lun =>
      if rdms.any (fun d => lun.uuid == d.lunUuid) then
        configure_present luns vmPath ctlList cmax slotKey rdms rest du specs changed
      else
        match computeRdmId lun.canonicalName with
        | .error e => .error e
        | .ok rdmid =>
          let file := strReplace vmPath ".vmx" ("_RDM" ++ rdmid ++ ".vmdk")
          match create_rdm ctlList cmax slotKey du lun file specs changed with
          | .error e => .error e
          | .ok (du1, specs1, ch1) =>
            configure_present luns vmPath ctlList cmax slotKey rdms rest du1 specs1 ch1

/-- The `state == 'absent'` loop of `configure_rdm_disks`: resolve each
WWID, then build one remove spec (`remove_rdm_disk`) per attached RDM disk
whose LUN UUID equals the resolved LUN's UUID. -/
def configure_absent (luns : List Lun) (rdms : List RdmDisk)
    (requested : List String) (specs : List DeviceOp) (changed : Bool) :
    Except String (List DeviceOp × Bool) :=
  match requested with
  | [] => .ok (specs, changed)
  | w :: rest =>
    match resolveLun luns w with
    | none => .error (lunMsg w)
    | some lun =>
      let ms := rdms.filter (fun d => d.lunUuid == lun.uuid)
      configure_absent luns rdms rest
        (specs ++ ms.map (fun d => .removeDisk d.key d.controllerKey d.unitNumber))
        (changed || !ms.isEmpty)

/-- Effect of one submitted device change on the VM, as realised by the
remote API: controller creation assigns the platform key `1000 + bus`;
disk creation assigns a fresh device key; removal deletes by device key. -/
def applyOp (vm : VmState) : DeviceOp → VmState
  | .addController kind bus =>
    { vm with controllers := vm.controllers ++ [⟨bus, 1000 + (bus : Int), kind⟩] }
  | .addDisk _ ctlKey unit lunUuid _ _ =>
    { vm with disks := vm.disks ++ [⟨2000 + (vm.disks.length : Int), ctlKey, unit, lunUuid⟩] }
  | .removeDisk key _ _ =>
    { vm with disks := vm.disks.filter (fun d => !(d.key == key)) }

/-- Effect of a whole submitted change set. -/
def applyOps (vm : VmState) (ops : List DeviceOp) : VmState :=
  ops.foldl applyOp vm

/-- Result of one `reconfigure_vm` invocation: the module's outcome
(`changed` flag or failure message), every change set submitted to the
remote API in order, and the final VM state. -/
structure RunOut where
  res : Except String Bool
  subs : List (List DeviceOp)
  vm : VmState

/-- The disk half of `reconfigure_vm` (lines 429-446): rebuild the RDM disk
list, run `get_rdm_info`, build the disk change set, and submit it iff
`change_detected` — a flag that persists from the controller-creation
sub-pass and is never reset. -/
def diskPhase (luns : List Lun) (p : Params) (cmax : Nat) (vm : VmState)
    (inv : CtlInv) (changeDetected applied : Bool)
    (subs : List (List DeviceOp)) : RunOut :=
  match get_rdm_info cmax p.state p.ctlList inv.units inv.keySlot vm.disks p.rdmDisk with
  | .error e => ⟨.error e, subs, vm⟩
  | .ok du =>
    let specsE : Except String (List DeviceOp × Bool) :=
      match p.state with
      | .present =>
        match configure_present luns vm.vmPathName p.ctlList cmax inv.slotKey
            vm.disks p.rdmDisk du [] changeDetected with
        | .error e => .error e
        | .ok (_, specs1, ch1) => .ok (specs1, ch1)
      | .absent => configure_absent luns vm.disks p.rdmDisk [] changeDetected
    match specsE with
    | .error e => ⟨.error e, subs, vm⟩
    | .ok (diskSpecs, cd) =>
      if cd then ⟨.ok true, subs ++ [diskSpecs], applyOps vm diskSpecs⟩
      else ⟨.ok applied, subs, vm⟩

/-- `reconfigure_vm`: compute the slot ceiling, inventory the controllers,
and in `present` mode validate controller types and create missing
controllers (submitting that change set immediately and re-inventorying);
then run the disk phase. In `absent` mode the controller validation and
creation sub-pass is skipped entirely. -/
def reconfigure_vm (luns : List Lun) (p : Params) (vm0 : VmState) : RunOut :=
  let cmax := check_maximums vm0.hwVersion p.ctlType
  match p.state with
  | .present =>
    let inv0 := vm_get_ctls vm0.controllers
    if ctl_check_types_fail inv0.units p.ctlType.str p.ctlList then
      ⟨.error ctlTypeMsg, [], vm0⟩
    else
      let creates := ctl_create_new p.ctlType p.ctlList inv0.units vm0.controllers
      if creates.isEmpty then
        diskPhase luns p cmax vm0 inv0 false false []
      else
        let vm1 := applyOps vm0 creates
        diskPhase luns p cmax vm1 (vm_get_ctls vm1.controllers) true true [creates]
  | .absent =>
    diskPhase luns p cmax vm0 (vm_get_ctls vm0.controllers) false false []

/-!
Spec-side definitions, written from the specification's wording (not from
the source), used only to compare the code's behaviour against the claims.
-/

/-- Modelled from the spec: the number of requested-but-unsatisfied WWIDs,
where a WWID is satisfied when some existing RDM disk's LUN identifier
matches it by a case-insensitive substring test. -/
def specUnsatisfiedCount (requested : List String) (rdms : List RdmDisk) : Nat :=
  (requested.filter (fun w =>
    !(rdms.any (fun d => strFind (lowerStr d.lunUuid) (lowerStr w))))).length

/-- Modelled from the spec: a requested WWID is already satisfied when some
existing RDM disk's LUN identifier matches it by a case-insensitive
substring test against the canonical LUN identifier (the canonical name of
the host LUN the disk's backing points at). -/
def specSatisfied (luns : List Lun) (rdms : List RdmDisk) (w : String) : Bool :=
  rdms.any (fun d => luns.any (fun l =>
    l.uuid == d.lunUuid && strFind (lowerStr l.canonicalName) (lowerStr w)))

/-- A unit `v` is recorded as occupied on bus `b` in the occupancy map. -/
def occMem (du : SlotMap) (b v : Nat) : Prop :=
  ∃ occ, assocGet du b = some occ ∧ v ∈ occ

/-- Pointwise growth of occupancy maps: every bus known to `d1` is known to
`d2` with at least the same occupied units. -/
def duLe (d1 d2 : SlotMap) : Prop :=
  ∀ b occ1, assocGet d1 b = some occ1 →
    ∃ occ2, assocGet d2 b = some occ2 ∧ ∀ v ∈ occ1, v ∈ occ2

/-!  Concrete scenarios used by counterexamples and witnesses. -/

/-- A paravirtual controller on bus 0 with the platform key convention. -/
def pvCtl0 : Controller := ⟨0, 1000, "paravirtualscsicontroller"⟩

/-- An RDM disk on controller key 1000 at the given unit, LUN UUID `zz`. -/
def zzDisk (u : Nat) : RdmDisk := ⟨Int.ofNat u + 50, 1000, u, "zz"⟩

/-- A VM whose bus-0 paravirtual controller carries fourteen RDM disks (all
usable units except 15), hardware version 13. -/
def cx5vm : VmState :=
  ⟨[pvCtl0], ([0, 1, 2, 3, 4, 5, 6, 8, 9, 10, 11, 12, 13, 14] : List Nat).map zzDisk,
   13, "/vmfs/a.vmx"⟩

/-- Request one paravirtual RDM disk with WWID `a0000b` on bus 0. -/
def cx5p : Params := ⟨.present, .paravirtual, [0], ["a0000b"]⟩

/-- A host LUN for WWID `a0000b` whose UUID does not contain the WWID. -/
def cx5luns : List Lun := [⟨"naa.a0000b", "u1", "dn"⟩]

/-- The same host LUN with a UUID that does contain the WWID. -/
def cw5luns : List Lun := [⟨"naa.a0000b", "xa0000b", "dn"⟩]

/-- A VM with a BusLogic controller on bus 0 and no disks. -/
def cx2vm : VmState := ⟨[⟨0, 1000, "virtualbuslogiccontroller"⟩], [], 13, "/a.vmx"⟩

/-- Absent-mode request for WWID `ab`, paravirtual type, allowed bus 0. -/
def cx2p : Params := ⟨.absent, .paravirtual, [0], ["ab"]⟩

/-- A host LUN for WWID `ab` with UUID `u1`. -/
def abLuns : List Lun := [⟨"naa.ab", "u1", "dn"⟩]

/-- Fifteen RDM disks on controller key 1000: one whose LUN UUID `aabb`
contains both requested WWIDs, fourteen with unrelated UUID `qq`. -/
def cx3disks : List RdmDisk :=
  ⟨1, 1000, 0, "aabb"⟩ :: (List.range 14).map (fun i => ⟨Int.ofNat i + 10, 1000, i + 1, "qq"⟩)

/-- Inventory rows for a single bus-0 controller with key 1000. -/
def cx3units : List (Nat × String) := [(0, "paravirtualscsicontroller")]

/-- Key-to-bus inventory for a single bus-0 controller with key 1000. -/
def cx3keySlot : List (Int × Nat) := [(1000, 0)]

/-- A fully occupied bus-0 occupancy set: every unit 0..15. -/
def cx4occ : List Nat := List.range 16

/-- Absent-mode request for WWID `aa` (no such LUN on the host). -/
def cx6p : Params := ⟨.absent, .paravirtual, [0], ["aa"]⟩

/-- A VM with a paravirtual controller on bus 3 carrying one RDM disk with
LUN UUID `u1` at unit 4. -/
def cx7vm : VmState := ⟨[⟨3, 1003, "paravirtualscsicontroller"⟩], [⟨9, 1003, 4, "u1"⟩], 13, "/a.vmx"⟩

/-- Absent-mode request for WWID `ab` restricted to bus 1 only. -/
def cx7p : Params := ⟨.absent, .paravirtual, [1], ["ab"]⟩

/-- A host LUN whose canonical name contains the WWID `abc` but whose UUID
`xyz` does not. -/
def cx8luns : List Lun := [⟨"naa.abc", "xyz", "dn"⟩]

/-- One RDM disk whose backing LUN UUID is `xyz`. -/
def cx8disks : List RdmDisk := [⟨1, 1000, 0, "xyz"⟩]

/-- A VM with a bus-0 paravirtual controller and one RDM disk for LUN UUID
`u1`; buses 0 and 1 are allowed, so bus 1 must be created. -/
def cx9vm : VmState := ⟨[pvCtl0], [⟨5, 1000, 0, "u1"⟩], 13, "/a.vmx"⟩

/-- Present-mode request for the already-attached WWID `ab` on buses 0, 1. -/
def cx9p : Params := ⟨.present, .paravirtual, [0, 1], ["ab"]⟩

/-!  Counterexample theorems. -/

/-- C2 counterexample: in absent mode the controller-type guard never runs.
The VM has a BusLogic controller on allowed bus 0 while paravirtual is
requested (kinds differ, and the requested type string does not even occur
in the controller's kind), yet the absent-mode run succeeds with no error
and no mutation — contradicting the claim that the type mismatch is fatal
"in both present and absent modes". -/
theorem c2_counterexample :
    (∃ c ∈ cx2vm.controllers, c.busNumber ∈ cx2p.ctlList ∧
      c.kind ≠ cx2p.ctlType.kindName ∧ strFind c.kind cx2p.ctlType.str = false) ∧
    cx2p.state = RdmState.absent ∧
    (reconfigure_vm abLuns cx2p cx2vm).res = Except.ok false ∧
    (reconfigure_vm abLuns cx2p cx2vm).subs = [] :=
  ⟨by decide, rfl, rfl, rfl⟩

/-- C3 counterexample: the code's capacity check counts matching disks, not
satisfied WWIDs. Here one disk's LUN UUID `aabb` contains both requested
WWIDs, so the spec-side count of unsatisfied WWIDs is 0 and the claimed sum
`15 existing + 0 unsatisfied` sits exactly at the boundary `15 × 1`, where
the claim says the check must succeed — but the code counts only one
presented disk, computes `15 + (2 - 1) = 16 > 15`, and fails. -/
theorem c3_counterexample :
    (cx3disks.length : Int) + specUnsatisfiedCount ["aa", "bb"] cx3disks =
      15 * ([0] : List Nat).length ∧
    get_rdm_info 15 RdmState.present [0] cx3units cx3keySlot cx3disks ["aa", "bb"] =
      Except.error (capacityMsg 16 15) :=
  ⟨by decide, rfl⟩

/-- C4 counterexample: with every unit 0..15 of allowed bus 0 occupied, the
allocator does not signal any no-free-slot error — `create_rdm` silently
returns with the occupancy map, spec list and change flag untouched. -/
theorem c4_counterexample :
    (∀ b ∈ [0], ∀ u ≤ 15, u ∈ cx4occ) ∧
    create_rdm [0] 15 [(0, 1000)] [(0, cx4occ)] ⟨"naa.x", "u", "d"⟩ "f" [] false =
      Except.ok ([(0, cx4occ)], [], false) :=
  ⟨by decide, rfl⟩

/-- C5 counterexample: a second present run against the state produced by a
successful first run can fail instead of reporting `changed=false`. The
first run attaches WWID `a0000b` (15th disk on the single allowed bus);
because the LUN's UUID `u1` does not contain the WWID, the second run's
capacity pre-check counts zero presented disks and fails with
`16 > 15` even though the disk set is already fully satisfied. -/
theorem c5_counterexample :
    (reconfigure_vm cx5luns cx5p cx5vm).res = Except.ok true ∧
    (reconfigure_vm cx5luns cx5p (reconfigure_vm cx5luns cx5p cx5vm).vm).res =
      Except.error (capacityMsg 16 15) :=
  ⟨rfl, rfl⟩

/-- C6 counterexample: a requested WWID with no matching attached RDM disk
is not always a no-op in absent mode — when the WWID's LUN is not presented
to the host, the run fails with a LUN-not-presented error instead of
reporting `changed=false`. -/
theorem c6_counterexample :
    cx6p.state = RdmState.absent ∧
    cx2vm.disks = [] ∧
    (reconfigure_vm [] cx6p cx2vm).res = Except.error (lunMsg "aa") :=
  ⟨rfl, rfl, rfl⟩

/-- C8 counterexample: the satisfied-count criterion and the skip criterion
are not the same test. WWID `abc` occurs in the canonical LUN identifier
`naa.abc` (so the spec's criterion calls it satisfied), and the attach loop
does skip it (exact UUID equality with the resolved LUN); but the capacity
check's presented count tests the WWID against the disk's LUN UUID `xyz`
and counts zero — so the capacity check treats the same WWID as new. -/
theorem c8_counterexample :
    specSatisfied cx8luns cx8disks "abc" = true ∧
    wwidPresentedCount cx8disks ["abc"] = 0 ∧
    configure_present cx8luns "/a.vmx" [0] 15 [(0, 1000)] cx8disks ["abc"]
      [(0, [7])] [] false = Except.ok ([(0, [7])], [], false) :=
  ⟨by decide, by decide, rfl⟩

/-- C9 counterexample: after a controller-creation apply cycle, the
disk-phase submission is not skipped even though the disk change set is
empty — the run submits the controller creation and then an empty change
set, because `change_detected` persists across the two sub-passes. -/
theorem c9_counterexample :
    (reconfigure_vm abLuns cx9p cx9vm).subs =
      [[DeviceOp.addController "paravirtualscsicontroller" 1], []] ∧
    (reconfigure_vm abLuns cx9p cx9vm).res = Except.ok true :=
  ⟨rfl, rfl⟩

/-!  Helper lemmas about the slot allocator. -/

theorem find?_range_some {p : Nat → Bool} {n u : Nat}
    (h : (List.range n).find? p = some u) :
    u < n ∧ p u = true ∧ ∀ v < u, p v = false := by
  induction n with
  | zero => simp [List.range_zero] at h
  | succ m ih =>
    rw [List.range_succ, List.find?_append] at h
    cases hm : (List.range m).find? p with
    | some w =>
      rw [hm] at h
      rw [Option.or_some] at h
      have hwu : w = u := by injection h
      subst hwu
      obtain ⟨h1, h2, h3⟩ := ih hm
      exact ⟨Nat.lt_succ_of_lt h1, h2, h3⟩
    | none =>
      rw [hm] at h
      simp only [Option.none_or] at h
      have hnone := List.find?_eq_none.mp hm
      by_cases hp : p m = true
      · simp [hp] at h
        subst h
        refine ⟨Nat.lt_succ_self m, hp, ?_⟩
        intro v hv
        have := hnone v (List.mem_range.mpr hv)
        simpa using this
      · simp [hp] at h

theorem scanUnits_some {occ : List Nat} {cmax u : Nat}
    (h : scanUnits occ cmax = some u) :
    u ≤ cmax ∧ u ∉ occ ∧ ∀ v < u, v ∈ occ := by
  obtain ⟨hlt, hp, hall⟩ := find?_range_some h
  refine ⟨by omega, ?_, ?_⟩
  · intro hmem
    simp [List.contains, List.elem_iff, hmem] at hp
  · intro v hv
    have := hall v hv
    simpa [List.contains, List.elem_iff] using this

theorem scanUnits_none {occ : List Nat} {cmax : Nat}
    (h : scanUnits occ cmax = none) : ∀ v ≤ cmax, v ∈ occ := by
  intro v hv
  have := List.find?_eq_none.mp h v (List.mem_range.mpr (by omega))
  simpa [List.contains, List.elem_iff] using this

theorem scanUnits_eq_none {occ : List Nat} {cmax : Nat}
    (h : ∀ v ≤ cmax, v ∈ occ) : scanUnits occ cmax = none := by
  apply List.find?_eq_none.mpr
  intro x hx
  have hxle : x ≤ cmax := by
    have := List.mem_range.mp hx
    omega
  simp [List.contains, List.elem_iff, h x hxle]

theorem assocGet_any {α β : Type} [BEq α] {l : List (α × β)} {k : α} {v : β}
    (h : assocGet l k = some v) : l.any (fun p => p.1 == k) = true := by
  induction l with
  | nil => simp [assocGet] at h
  | cons p rest ih =>
    by_cases hp : (p.1 == k) = true
    · simp [hp]
    · simp only [assocGet, hp, if_false] at h
      simp [hp, ih h]

theorem slotAddE_ok {du : SlotMap} {b u : Nat} {occ : List Nat}
    (h : assocGet du b = some occ) : slotAddE du b u = .ok (slotAdd du b u) := by
  unfold slotAddE slotAdd
  rw [assocGet_any h]
  rfl

theorem assocGet_slotAdd_self {du : SlotMap} {b u : Nat} {occ : List Nat}
    (h : assocGet du b = some occ) :
    assocGet (slotAdd du b u) b = some (u :: occ) := by
  induction du with
  | nil => simp [assocGet] at h
  | cons p rest ih =>
    by_cases hp : (p.1 == b) = true
    · simp only [assocGet, hp, if_true] at h
      have hv : p.2 = occ := by injection h
      simp [slotAdd, assocGet, hp, hv]
    · have h2 : assocGet rest b = some occ := by simpa [assocGet, hp] using h
      have ihh := ih h2
      simp only [slotAdd] at ihh
      simpa [slotAdd, assocGet, hp] using ihh

theorem scanSlots_ok_some {cl : List Nat} {cmax : Nat} {du : SlotMap} {b u : Nat}
    (h : scanSlots cl cmax du = .ok (some (b, u))) :
    (∃ pre suf, cl = pre ++ b :: suf ∧
      ∀ c ∈ pre, ∃ occ, assocGet du c = some occ ∧ ∀ v ≤ cmax, v ∈ occ) ∧
    ∃ occ, assocGet du b = some occ ∧ u ∉ occ ∧ u ≤ cmax ∧ ∀ v < u, v ∈ occ := by
  induction cl with
  | nil => simp [scanSlots] at h
  | cons c rest ih =>
    cases hg : assocGet du c with
    | none => simp [scanSlots, hg] at h
    | some occ =>
      cases hs : scanUnits occ cmax with
      | some w =>
        simp [scanSlots, hg, hs] at h
        obtain ⟨hb, hu⟩ := h
        subst hb; subst hu
        obtain ⟨h1, h2, h3⟩ := scanUnits_some hs
        exact ⟨⟨[], rest, rfl, by simp⟩, occ, hg, h2, h1, h3⟩
      | none =>
        have h' : scanSlots rest cmax du = .ok (some (b, u)) := by
          simpa [scanSlots, hg, hs] using h
        obtain ⟨⟨pre, suf, hcl, hpre⟩, hocc⟩ := ih h'
        refine ⟨⟨c :: pre, suf, by rw [hcl]; rfl, ?_⟩, hocc⟩
        intro x hx
        rcases List.mem_cons.mp hx with hx | hx
        · subst hx; exact ⟨occ, hg, scanUnits_none hs⟩
        · exact hpre x hx

theorem scanSlots_ok_none {cl : List Nat} {cmax : Nat} {du : SlotMap}
    (h : scanSlots cl cmax du = .ok none) :
    ∀ c ∈ cl, ∃ occ, assocGet du c = some occ ∧ ∀ v ≤ cmax, v ∈ occ := by
  induction cl with
  | nil => simp
  | cons c rest ih =>
    intro x hx
    cases hg : assocGet du c with
    | none => simp [scanSlots, hg] at h
    | some occ =>
      cases hs : scanUnits occ cmax with
      | some w => simp [scanSlots, hg, hs] at h
      | none =>
        have h' : scanSlots rest cmax du = .ok none := by
          simpa [scanSlots, hg, hs] using h
        rcases List.mem_cons.mp hx with hx | hx
        · subst hx; exact ⟨occ, hg, scanUnits_none hs⟩
        · exact ih h' x hx

theorem scanSlots_of_full {cl : List Nat} {cmax : Nat} {du : SlotMap}
    (h : ∀ c ∈ cl, ∃ occ, assocGet du c = some occ ∧ ∀ v ≤ cmax, v ∈ occ) :
    scanSlots cl cmax du = .ok none := by
  induction cl with
  | nil => rfl
  | cons c rest ih =>
    obtain ⟨occ, hg, hfull⟩ := h c (List.mem_cons_self c rest)
    have hs : scanUnits occ cmax = none := scanUnits_eq_none hfull
    have := ih (fun x hx => h x (List.mem_cons_of_mem c hx))
    simp [scanSlots, hg, hs, this]

theorem create_rdm_scan_some {cl : List Nat} {cmax : Nat} {sk : List (Nat × Int)}
    {du : SlotMap} {b u : Nat} {occ : List Nat} {k : Int}
    (hscan : scanSlots cl cmax du = .ok (some (b, u)))
    (hocc : assocGet du b = some occ) (hk : assocGet sk b = some k)
    (lun : Lun) (file : String) (specs : List DeviceOp) (ch : Bool) :
    create_rdm cl cmax sk du lun file specs ch =
      .ok (slotAdd du b u,
        specs ++ [.addDisk (-100 - (u : Int)) k u lun.uuid lun.deviceName file],
        true) := by
  simp only [create_rdm, hscan, slotAddE_ok hocc, hk]

theorem create_rdm_scan_none {cl : List Nat} {cmax : Nat} {sk : List (Nat × Int)}
    {du : SlotMap} (hscan : scanSlots cl cmax du = .ok none)
    (lun : Lun) (file : String) (specs : List DeviceOp) (ch : Bool) :
    create_rdm cl cmax sk du lun file specs ch = .ok (du, specs, ch) := by
  simp only [create_rdm, hscan]

/-- C1: the slot allocator is deterministic and batch-safe. When the nested
scan of `create_rdm` finds `(b, u)`, then `b` is the first allowed bus (in
caller-supplied order) with any free unit, `u` is the smallest free unit
number in `0..capacity` on that bus, `create_rdm` records `u` as occupied
on `b` in the occupancy map it returns together with the attach spec, and a
repeated allocation against the updated map can never return `(b, u)`
again. The concrete instance of the claim — occupancy
`{bus0: {7,0,1}, bus1: {7}}`, allowed buses `[0,1]` — is checked in the
witness: the first allocation yields `(bus0, unit2)` and the second
`(bus0, unit3)`. -/
theorem c1_slot_allocation {cl : List Nat} {cmax : Nat} {du : SlotMap} {b u : Nat}
    (h : scanSlots cl cmax du = .ok (some (b, u))) :
    (∃ pre suf, cl = pre ++ b :: suf ∧
      ∀ c ∈ pre, ∃ occ, assocGet du c = some occ ∧ ∀ v ≤ cmax, v ∈ occ) ∧
    (∃ occ, assocGet du b = some occ ∧ u ∉ occ ∧ u ≤ cmax ∧ ∀ v < u, v ∈ occ) ∧
    (∀ sk : List (Nat × Int), ∀ k : Int, ∀ lun : Lun, ∀ file : String,
      ∀ specs : List DeviceOp, ∀ ch : Bool, assocGet sk b = some k →
      create_rdm cl cmax sk du lun file specs ch =
        .ok (slotAdd du b u,
          specs ++ [.addDisk (-100 - (u : Int)) k u lun.uuid lun.deviceName file],
          true)) ∧
    scanSlots cl cmax (slotAdd du b u) ≠ .ok (some (b, u)) := by
  obtain ⟨hfirstbus, occ, hocc, hnotmem, hle, hbelow⟩ := scanSlots_ok_some h
  refine ⟨hfirstbus, ⟨occ, hocc, hnotmem, hle, hbelow⟩, ?_, ?_⟩
  · intro sk k lun file specs ch hk
    exact create_rdm_scan_some h hocc hk lun file specs ch
  · intro hrepeat
    obtain ⟨_, occ1, hocc1, hnotmem1, _, _⟩ := scanSlots_ok_some hrepeat
    rw [assocGet_slotAdd_self hocc] at hocc1
    have hocc2 : occ1 = u :: occ := (Option.some.inj hocc1).symm
    subst hocc2
    exact hnotmem1 (List.mem_cons_self u occ)

/-- Witness for C1 at the claim's concrete instance: with occupancy
`{bus0: {7,0,1}, bus1: {7}}` and allowed buses `[0,1]`, the scan yields
`(bus0, unit2)`; applying the theorem there gives the allocator's
first-free guarantees, and the repeated allocation yields `(bus0, unit3)`,
not `(bus1, unit0)`. -/
theorem c1_slot_allocation_witness :
    scanSlots [0, 1] 15 [(0, [7, 0, 1]), (1, [7])] = .ok (some (0, 2)) ∧
    scanSlots [0, 1] 15 (slotAdd [(0, [7, 0, 1]), (1, [7])] 0 2) = .ok (some (0, 3)) ∧
    create_rdm [0, 1] 15 [(0, 1000), (1, 1001)] [(0, [7, 0, 1]), (1, [7])]
      ⟨"naa.a0000b", "u1", "dn"⟩ "f" [] false =
      .ok (slotAdd [(0, [7, 0, 1]), (1, [7])] 0 2,
        [.addDisk (-102) 1000 2 "u1" "dn" "f"], true) ∧
    scanSlots [0, 1] 15 (slotAdd [(0, [7, 0, 1]), (1, [7])] 0 2) ≠ .ok (some (0, 2)) := by
  have happ := @c1_slot_allocation [0, 1] 15
    [(0, [7, 0, 1]), (1, [7])] 0 2 rfl
  refine ⟨rfl, rfl, ?_, happ.2.2.2⟩
  have := happ.2.2.1 [(0, 1000), (1, 1001)] 1000 ⟨"naa.a0000b", "u1", "dn"⟩ "f" [] false rfl
  simpa using this

/-!  Helper lemmas about association lists and the inventory fold. -/

theorem assocGet_setmap {α β : Type} [BEq α] [LawfulBEq α]
    {l : List (α × β)} {k : α} (v : β) (h : l.any (fun p => p.1 == k) = true) :
    assocGet (l.map (fun p => if p.1 == k then (k, v) else p)) k = some v := by
  induction l with
  | nil => simp at h
  | cons p rest ih =>
    by_cases hp : (p.1 == k) = true
    · simp [assocGet, hp]
    · have hr : rest.any (fun p => p.1 == k) = true := by simpa [hp] using h
      simp [assocGet, hp, ih hr]

theorem assocGet_append_single {α β : Type} [BEq α] [LawfulBEq α]
    {l : List (α × β)} {k : α} (v : β) (h : l.any (fun p => p.1 == k) = false) :
    assocGet (l ++ [(k, v)]) k = some v := by
  induction l with
  | nil => simp [assocGet]
  | cons p rest ih =>
    have hp : (p.1 == k) = false := by
      by_contra hc
      simp only [Bool.not_eq_false] at hc
      simp [hc] at h
    have hr : rest.any (fun p => p.1 == k) = false := by
      by_contra hc
      simp only [Bool.not_eq_false] at hc
      simp [hc] at h
    simp [assocGet, hp, ih hr]

theorem assocGet_assocSet_self {α β : Type} [BEq α] [LawfulBEq α]
    (l : List (α × β)) (k : α) (v : β) :
    assocGet (assocSet l k v) k = some v := by
  unfold assocSet
  by_cases h : l.any (fun p => p.1 == k) = true
  · simp only [h, if_true]
    exact assocGet_setmap v h
  · have hf : l.any (fun p => p.1 == k) = false := by
      cases hx : l.any (fun p => p.1 == k) with
      | true => exact absurd hx h
      | false => rfl
    simp only [hf, Bool.false_eq_true, if_false]
    exact assocGet_append_single v hf

theorem assocGet_map_set_other {α β : Type} [BEq α] [LawfulBEq α]
    {k k' : α} (v : β) (hne : ¬ k' = k) (l : List (α × β)) :
    assocGet (l.map (fun p => if p.1 == k then (k, v) else p)) k' =
      assocGet l k' := by
  induction l with
  | nil => rfl
  | cons p rest ih =>
    by_cases hp : (p.1 == k) = true
    · have hpk : p.1 = k := by simpa using hp
      have hk' : (k == k') = false := by
        simp only [beq_eq_false_iff_ne, ne_eq]
        intro hc; exact hne hc.symm
      have hp' : (p.1 == k') = false := by rw [hpk]; exact hk'
      simp [assocGet, hp, hk', hp', ih]
    · by_cases hp' : (p.1 == k') = true
      · simp [assocGet, hp, hp']
      · simp [assocGet, hp, hp', ih]

theorem assocGet_append_single_other {α β : Type} [BEq α] [LawfulBEq α]
    {k k' : α} (v : β) (hne : ¬ k' = k) (l : List (α × β)) :
    assocGet (l ++ [(k, v)]) k' = assocGet l k' := by
  induction l with
  | nil =>
    have hk : (k == k') = false := by
      simp only [beq_eq_false_iff_ne, ne_eq]
      intro hc; exact hne hc.symm
    simp [assocGet, hk]
  | cons p rest ih =>
    by_cases hp' : (p.1 == k') = true
    · simp [assocGet, hp']
    · simp [assocGet, hp', ih]

theorem assocGet_assocSet_other {α β : Type} [BEq α] [LawfulBEq α]
    {l : List (α × β)} {k k' : α} (v : β) (hne : ¬ k' = k) :
    assocGet (assocSet l k v) k' = assocGet l k' := by
  unfold assocSet
  by_cases h : l.any (fun p => p.1 == k) = true
  · simp only [h, if_true]
    exact assocGet_map_set_other v hne l
  · simp only [h, Bool.false_eq_true, if_false]
    exact assocGet_append_single_other v hne l

theorem isSome_assocGet_assocSet {α β : Type} [BEq α] [LawfulBEq α]
    {l : List (α × β)} {k k' : α} (v : β) :
    (assocGet (assocSet l k v) k').isSome = true ↔
      k' = k ∨ (assocGet l k').isSome = true := by
  by_cases hk : k' = k
  · subst hk
    simp [assocGet_assocSet_self]
  · rw [assocGet_assocSet_other v hk]
    simp [hk]

theorem assocGet_mem {α β : Type} [BEq α] [LawfulBEq α]
    {l : List (α × β)} {k : α} {v : β} (h : assocGet l k = some v) :
    (k, v) ∈ l := by
  induction l with
  | nil => simp [assocGet] at h
  | cons p rest ih =>
    by_cases hp : (p.1 == k) = true
    · have hpk : p.1 = k := by simpa using hp
      have hv : p.2 = v := by
        simp only [assocGet, hp, if_true] at h
        injection h
      have : p = (k, v) := by
        cases p; simp_all
      rw [← this]
      exact List.mem_cons_self p rest
    · simp only [assocGet, hp, Bool.false_eq_true, if_false] at h
      exact List.mem_cons_of_mem p (ih h)

theorem vm_get_ctls_fold (ctls : List Controller) :
    ∀ x y z, ctls.foldl
      (fun inv c =>
        ⟨assocSet inv.slotKey c.busNumber c.key,
         assocSet inv.keySlot c.key c.busNumber,
         assocSet inv.units c.busNumber c.kind⟩)
      (⟨x, y, z⟩ : CtlInv) = ⟨skFold ctls x, ksFold ctls y, unFold ctls z⟩ := by
  induction ctls with
  | nil => intro x y z; rfl
  | cons c rest ih =>
    intro x y z
    simp only [List.foldl_cons]
    exact ih _ _ _

theorem vm_get_ctls_eq (ctls : List Controller) :
    vm_get_ctls ctls = ⟨skFold ctls [], ksFold ctls [], unFold ctls []⟩ :=
  vm_get_ctls_fold ctls [] [] []

theorem unFold_preserve {ctls : List Controller} {acc : List (Nat × String)}
    {b : Nat} (h : ∀ c ∈ ctls, ¬ c.busNumber = b) :
    assocGet (unFold ctls acc) b = assocGet acc b := by
  induction ctls generalizing acc with
  | nil => rfl
  | cons c rest ih =>
    have h1 : ¬ b = c.busNumber := fun hc =>
      h c (List.mem_cons_self c rest) hc.symm
    calc assocGet (unFold rest (assocSet acc c.busNumber c.kind)) b
        = assocGet (assocSet acc c.busNumber c.kind) b :=
          ih (fun x hx => h x (List.mem_cons_of_mem c hx))
      _ = assocGet acc b := assocGet_assocSet_other c.kind h1

theorem isSome_unFold {ctls : List Controller} {acc : List (Nat × String)}
    {b : Nat} :
    (assocGet (unFold ctls acc) b).isSome = true ↔
      (∃ c ∈ ctls, c.busNumber = b) ∨ (assocGet acc b).isSome = true := by
  induction ctls generalizing acc with
  | nil => simp [unFold]
  | cons c rest ih =>
    constructor
    · intro h
      rcases ih.mp h with hex | hacc
      · obtain ⟨x, hx, hxb⟩ := hex
        exact Or.inl ⟨x, List.mem_cons_of_mem c hx, hxb⟩
      · rcases (isSome_assocGet_assocSet c.kind).mp hacc with hb | hold
        · exact Or.inl ⟨c, List.mem_cons_self c rest, hb.symm⟩
        · exact Or.inr hold
    · intro h
      apply ih.mpr
      rcases h with ⟨x, hx, hxb⟩ | hacc
      · rcases List.mem_cons.mp hx with hxc | hx
        · refine Or.inr ((isSome_assocGet_assocSet c.kind).mpr (Or.inl ?_))
          rw [hxc] at hxb
          exact hxb.symm
        · exact Or.inl ⟨x, hx, hxb⟩
      · exact Or.inr ((isSome_assocGet_assocSet c.kind).mpr (Or.inr hacc))

theorem assocGet_unFold_nodup {ctls : List Controller}
    (hnd : (ctls.map (·.busNumber)).Nodup) {c : Controller} (hc : c ∈ ctls) :
    ∀ acc, assocGet (unFold ctls acc) c.busNumber = some c.kind := by
  induction ctls with
  | nil => simp at hc
  | cons c0 rest ih =>
    intro acc
    simp only [List.map_cons] at hnd
    rcases List.mem_cons.mp hc with hx | hx
    · subst hx
      have hnot : ∀ x ∈ rest, ¬ x.busNumber = c.busNumber := by
        intro x hxr hcon
        have hmem : x.busNumber ∈ rest.map (fun y => y.busNumber) :=
          List.mem_map_of_mem _ hxr
        rw [hcon] at hmem
        exact (List.nodup_cons.mp hnd).1 (by simpa using hmem)
      rw [show unFold (c :: rest) acc = unFold rest (assocSet acc c.busNumber c.kind) from rfl]
      rw [unFold_preserve hnot]
      exact assocGet_assocSet_self acc c.busNumber c.kind
    · exact ih (List.nodup_cons.mp hnd).2 hx (assocSet acc c0.busNumber c0.kind)

/-- C4 amended: when every unit number in range on every allowed bus is
already occupied, the slot allocator does not signal an error; the
`FreeBusFound` exception is never raised, the exception handler never runs,
and `create_rdm` silently returns with the occupancy map, change-spec list
and change flag untouched — the disk is skipped, and only the upstream
capacity check guards against this situation. -/
theorem c4_exhaustion_silent {cl : List Nat} {cmax : Nat} (sk : List (Nat × Int))
    {du : SlotMap}
    (h : ∀ b ∈ cl, ∃ occ, assocGet du b = some occ ∧ ∀ v ≤ cmax, v ∈ occ)
    (lun : Lun) (file : String) (specs : List DeviceOp) (ch : Bool) :
    create_rdm cl cmax sk du lun file specs ch = .ok (du, specs, ch) :=
  create_rdm_scan_none (scanSlots_of_full h) lun file specs ch

/-- Witness for C4's amended statement: full occupancy of bus 0 makes
`create_rdm` return its inputs unchanged, with no error. -/
theorem c4_exhaustion_silent_witness :
    (∀ b ∈ [0], ∃ occ, assocGet [(0, cx4occ)] b = some occ ∧ ∀ v ≤ 15, v ∈ occ) ∧
    create_rdm [0] 15 [(0, 1000)] [(0, cx4occ)] ⟨"naa.y", "u2", "d2"⟩ "g" [] true =
      .ok ([(0, cx4occ)], [], true) := by
  have hfull : ∀ b ∈ [0], ∃ occ, assocGet [(0, cx4occ)] b = some occ ∧
      ∀ v ≤ 15, v ∈ occ := by
    intro b hb
    have hb0 : b = 0 := by simpa using hb
    subst hb0
    exact ⟨cx4occ, rfl, by decide⟩
  exact ⟨hfull, c4_exhaustion_silent _ hfull _ _ _ _⟩

/-!  Helper lemmas about the absent-mode detach loop. -/

theorem configure_absent_suffix {luns : List Lun} {rdms : List RdmDisk} :
    ∀ {req : List String} {specs : List DeviceOp} {ch : Bool}
      {specs' : List DeviceOp} {ch' : Bool},
    configure_absent luns rdms req specs ch = .ok (specs', ch') →
    ∃ suffix, specs' = specs ++ suffix ∧
      (∀ op ∈ suffix, ∃ d ∈ rdms, ∃ w ∈ req, ∃ l, resolveLun luns w = some l ∧
        d.lunUuid = l.uuid ∧ op = .removeDisk d.key d.controllerKey d.unitNumber) ∧
      ch' = (ch || !suffix.isEmpty) := by
  intro req
  induction req with
  | nil =>
    intro specs ch specs' ch' h
    simp only [configure_absent] at h
    injection h with hh
    injection hh with h1 h2
    subst h1; subst h2
    exact ⟨[], by simp, by simp, by simp⟩
  | cons w rest ih =>
    intro specs ch specs' ch' h
    simp only [configure_absent] at h
    cases hr : resolveLun luns w with
    | none => rw [hr] at h; exact absurd h (by simp)
    | some lun =>
      rw [hr] at h
      obtain ⟨suffix1, hsp, hops, hch⟩ := ih h
      refine ⟨(rdms.filter (fun d => d.lunUuid == lun.uuid)).map
        (fun d => .removeDisk d.key d.controllerKey d.unitNumber) ++ suffix1,
        by rw [hsp, List.append_assoc], ?_, ?_⟩
      · intro op hop
        rcases List.mem_append.mp hop with hop | hop
        · obtain ⟨d, hd, hop⟩ := List.mem_map.mp hop
          have hdm := List.mem_filter.mp hd
          refine ⟨d, hdm.1, w, List.mem_cons_self w rest, lun, hr, ?_, hop.symm⟩
          simpa using hdm.2
        · obtain ⟨d, hd, w', hw', l, hl, hdl, hop⟩ := hops op hop
          exact ⟨d, hd, w', List.mem_cons_of_mem w hw', l, hl, hdl, hop⟩
      · rw [hch]
        by_cases hms : rdms.filter (fun d => d.lunUuid == lun.uuid) = []
        · simp [hms]
        · obtain ⟨a, as, hcons⟩ := List.exists_cons_of_ne_nil hms
          simp [hcons]

theorem configure_absent_mem {luns : List Lun} {rdms : List RdmDisk} :
    ∀ {req : List String} {specs : List DeviceOp} {ch : Bool}
      {specs' : List DeviceOp} {ch' : Bool},
    configure_absent luns rdms req specs ch = .ok (specs', ch') →
    ∀ w ∈ req, ∀ l, resolveLun luns w = some l → ∀ d ∈ rdms, d.lunUuid = l.uuid →
      DeviceOp.removeDisk d.key d.controllerKey d.unitNumber ∈ specs' ∧ ch' = true := by
  intro req
  induction req with
  | nil => intro _ _ _ _ _ w hw; simp at hw
  | cons w0 rest ih =>
    intro specs ch specs' ch' h w hw l hl d hd hdl
    simp only [configure_absent] at h
    cases hr : resolveLun luns w0 with
    | none => rw [hr] at h; exact absurd h (by simp)
    | some lun0 =>
      rw [hr] at h
      rcases List.mem_cons.mp hw with hww | hww
      · subst hww
        have hlun : lun0 = l := by
          rw [hl] at hr
          injection hr with he
          exact he.symm
        subst hlun
        have hdm : d ∈ rdms.filter (fun x => x.lunUuid == lun0.uuid) :=
          List.mem_filter.mpr ⟨hd, by simpa using hdl⟩
        have hopmem : DeviceOp.removeDisk d.key d.controllerKey d.unitNumber ∈
            specs ++ (rdms.filter (fun x => x.lunUuid == lun0.uuid)).map
              (fun x => .removeDisk x.key x.controllerKey x.unitNumber) := by
          apply List.mem_append.mpr
          exact Or.inr (List.mem_map.mpr ⟨d, hdm, rfl⟩)
        obtain ⟨suffix1, hsp, _, hch⟩ := configure_absent_suffix h
        constructor
        · rw [hsp]
          exact List.mem_append.mpr (Or.inl hopmem)
        · rw [hch]
          have hne : rdms.filter (fun x => x.lunUuid == lun0.uuid) ≠ [] := by
            intro hnil
            rw [hnil] at hdm
            simp at hdm
          have hie : (rdms.filter (fun x => x.lunUuid == lun0.uuid)).isEmpty = false := by
            rw [Bool.eq_false_iff]
            intro hecontra
            exact hne (List.isEmpty_iff.mp hecontra)
          simp [hie]
      · exact ih h w hww l hl d hd hdl

theorem configure_absent_noop {luns : List Lun} {rdms : List RdmDisk} :
    ∀ {req : List String} (specs : List DeviceOp) (ch : Bool),
    (∀ w ∈ req, ∃ l, resolveLun luns w = some l ∧ ∀ d ∈ rdms, ¬ d.lunUuid = l.uuid) →
    configure_absent luns rdms req specs ch = .ok (specs, ch) := by
  intro req
  induction req with
  | nil => intro specs ch _; rfl
  | cons w rest ih =>
    intro specs ch h
    obtain ⟨l, hl, hnom⟩ := h w (List.mem_cons_self w rest)
    have hfil : rdms.filter (fun d => d.lunUuid == l.uuid) = [] := by
      apply List.filter_eq_nil_iff.mpr
      intro d hd
      simpa using hnom d hd
    simp only [configure_absent, hl, hfil]
    have := ih specs ch (fun w' hw' => h w' (List.mem_cons_of_mem w hw'))
    simpa using this

/-!  Existence lemmas for the occupancy-map construction. -/

theorem mem_assocSet {α β : Type} [BEq α] {l : List (α × β)} {k : α} {v : β}
    {q : α × β} (h : q ∈ assocSet l k v) : q ∈ l ∨ q = (k, v) := by
  unfold assocSet at h
  by_cases ha : l.any (fun p => p.1 == k) = true
  · simp only [ha, if_true] at h
    obtain ⟨p, hp, hq⟩ := List.mem_map.mp h
    by_cases hpk : (p.1 == k) = true
    · simp only [hpk, if_true] at hq
      exact Or.inr hq.symm
    · simp only [hpk, Bool.false_eq_true, if_false] at hq
      exact Or.inl (hq ▸ hp)
  · simp only [ha, Bool.false_eq_true, if_false] at h
    rcases List.mem_append.mp h with h | h
    · exact Or.inl h
    · simp only [List.mem_singleton] at h
      exact Or.inr h

theorem mem_ksFold {ctls : List Controller} :
    ∀ {acc : List (Int × Nat)} {q : Int × Nat}, q ∈ ksFold ctls acc →
      q ∈ acc ∨ ∃ c ∈ ctls, q = (c.key, c.busNumber) := by
  induction ctls with
  | nil => intro acc q h; exact Or.inl h
  | cons c rest ih =>
    intro acc q h
    rcases ih h with h | h
    · rcases mem_assocSet h with h | h
      · exact Or.inl h
      · exact Or.inr ⟨c, List.mem_cons_self c rest, h⟩
    · obtain ⟨x, hx, hq⟩ := h
      exact Or.inr ⟨x, List.mem_cons_of_mem c hx, hq⟩

theorem isSome_assocGet_slotAdd {du : SlotMap} {b u b' : Nat} :
    (assocGet (slotAdd du b u) b').isSome = (assocGet du b').isSome := by
  induction du with
  | nil => rfl
  | cons p rest ih =>
    by_cases hb : (p.1 == b) = true <;> by_cases hb' : (p.1 == b') = true <;>
      simp only [slotAdd, List.map_cons, assocGet, hb, hb', if_true, if_false,
        Bool.false_eq_true, Option.isSome_some] <;>
      simpa [slotAdd] using ih

theorem buildDiskUnits_total {ks : List (Int × Nat)} {rdms : List RdmDisk} :
    ∀ {du : SlotMap},
    (∀ d ∈ rdms, ∃ b, assocGet ks d.controllerKey = some b ∧
      (assocGet du b).isSome = true) →
    ∃ du', buildDiskUnits ks rdms du = .ok du' := by
  induction rdms with
  | nil => intro du _; exact ⟨du, rfl⟩
  | cons d rest ih =>
    intro du h
    obtain ⟨b, hb, hsome⟩ := h d (List.mem_cons_self d rest)
    obtain ⟨occ, hocc⟩ := Option.isSome_iff_exists.mp hsome
    have hadd : slotAddE du b d.unitNumber = .ok (slotAdd du b d.unitNumber) :=
      slotAddE_ok hocc
    have hrest : ∀ x ∈ rest, ∃ b', assocGet ks x.controllerKey = some b' ∧
        (assocGet (slotAdd du b d.unitNumber) b').isSome = true := by
      intro x hx
      obtain ⟨b', hb', hs'⟩ := h x (List.mem_cons_of_mem d hx)
      exact ⟨b', hb', by rw [isSome_assocGet_slotAdd]; exact hs'⟩
    obtain ⟨du', hdu'⟩ := ih hrest
    exact ⟨du', by simp only [buildDiskUnits, hb, hadd, hdu']⟩

theorem buildDiskUnits_isSome {ks : List (Int × Nat)} {rdms : List RdmDisk} :
    ∀ {du du' : SlotMap}, buildDiskUnits ks rdms du = .ok du' →
    ∀ b, (assocGet du' b).isSome = (assocGet du b).isSome := by
  induction rdms with
  | nil =>
    intro du du' h b
    simp only [buildDiskUnits] at h
    have : du = du' := by injection h
    rw [this]
  | cons d rest ih =>
    intro du du' h b
    cases hb : assocGet ks d.controllerKey with
    | none => simp [buildDiskUnits, hb] at h
    | some bx =>
      cases ha : slotAddE du bx d.unitNumber with
      | error e => simp [buildDiskUnits, hb, ha] at h
      | ok du1 =>
        have h' : buildDiskUnits ks rest du1 = .ok du' := by
          simpa [buildDiskUnits, hb, ha] using h
        have hk : du1 = slotAdd du bx d.unitNumber := by
          unfold slotAddE at ha
          by_cases hany : du.any (fun p => p.1 == bx) = true
          · rw [if_pos hany] at ha
            injection ha with hh
            exact hh.symm
          · rw [if_neg hany] at ha
            exact absurd ha (by simp)
        rw [ih h' b, hk, isSome_assocGet_slotAdd]

theorem isSome_ksFold {ctls : List Controller} :
    ∀ {acc : List (Int × Nat)} {k : Int},
    (assocGet (ksFold ctls acc) k).isSome = true ↔
      (∃ c ∈ ctls, c.key = k) ∨ (assocGet acc k).isSome = true := by
  induction ctls with
  | nil => simp [ksFold]
  | cons c rest ih =>
    intro acc k
    constructor
    · intro h
      rcases ih.mp h with hex | hacc
      · obtain ⟨x, hx, hxk⟩ := hex
        exact Or.inl ⟨x, List.mem_cons_of_mem c hx, hxk⟩
      · rcases (isSome_assocGet_assocSet c.busNumber).mp hacc with hk | hold
        · exact Or.inl ⟨c, List.mem_cons_self c rest, hk.symm⟩
        · exact Or.inr hold
    · intro h
      apply ih.mpr
      rcases h with ⟨x, hx, hxk⟩ | hacc
      · rcases List.mem_cons.mp hx with hxc | hx
        · refine Or.inr ((isSome_assocGet_assocSet c.busNumber).mpr (Or.inl ?_))
          rw [hxc] at hxk
          exact hxk.symm
        · exact Or.inl ⟨x, hx, hxk⟩
      · exact Or.inr ((isSome_assocGet_assocSet c.busNumber).mpr (Or.inr hacc))

theorem isSome_assocGet_mapSeven {l : List (Nat × String)} {b : Nat} :
    (assocGet (l.map (fun q => (q.1, ([7] : List Nat)))) b).isSome =
      (assocGet l b).isSome := by
  induction l with
  | nil => rfl
  | cons p rest ih =>
    by_cases hp : (p.1 == b) = true <;> simp [assocGet, hp, ih]

/-- Under the well-formedness assumption that every RDM disk sits on one of
the VM's SCSI controllers, the occupancy-map construction of `get_rdm_info`
can look up every disk's bus and that bus's entry. -/
theorem wf_lookup {ctls : List Controller} {d : RdmDisk}
    (h : ∃ c ∈ ctls, c.key = d.controllerKey) :
    ∃ b, assocGet (ksFold ctls []) d.controllerKey = some b ∧
      (assocGet ((unFold ctls []).map (fun q => (q.1, ([7] : List Nat)))) b).isSome
        = true := by
  have hks : (assocGet (ksFold ctls []) d.controllerKey).isSome = true :=
    isSome_ksFold.mpr (Or.inl h)
  obtain ⟨b, hb⟩ := Option.isSome_iff_exists.mp hks
  refine ⟨b, hb, ?_⟩
  rw [isSome_assocGet_mapSeven]
  have hmem := assocGet_mem hb
  rcases mem_ksFold hmem with hmem | hmem
  · simp at hmem
  · obtain ⟨c, hc, hq⟩ := hmem
    have hcb : c.busNumber = b := by
      have := congrArg Prod.snd hq
      simpa using this.symm
    exact isSome_unFold.mpr (Or.inl ⟨c, hc, hcb⟩)

theorem get_rdm_info_absent_ok {cmax : Nat} {ctlList : List Nat}
    {units : List (Nat × String)} {ks : List (Int × Nat)} {rdms : List RdmDisk}
    {requested : List String}
    (h : ∀ d ∈ rdms, ∃ b, assocGet ks d.controllerKey = some b ∧
      (assocGet (units.map (fun q => (q.1, ([7] : List Nat)))) b).isSome = true) :
    ∃ du, get_rdm_info cmax RdmState.absent ctlList units ks rdms requested =
      .ok du := by
  obtain ⟨du', hdu⟩ := buildDiskUnits_total h
  refine ⟨du', ?_⟩
  simp only [get_rdm_info, hdu]
  rw [if_neg]
  rintro ⟨_, hc⟩
  exact absurd hc (by simp)

theorem configure_absent_total {luns : List Lun} {rdms : List RdmDisk} :
    ∀ {req : List String} (specs : List DeviceOp) (ch : Bool),
    (∀ w ∈ req, ∃ l, resolveLun luns w = some l) →
    ∃ specs' ch', configure_absent luns rdms req specs ch = .ok (specs', ch') := by
  intro req
  induction req with
  | nil => intro specs ch _; exact ⟨specs, ch, rfl⟩
  | cons w rest ih =>
    intro specs ch h
    obtain ⟨l, hl⟩ := h w (List.mem_cons_self w rest)
    obtain ⟨specs', ch', hres⟩ := ih
      (specs ++ (rdms.filter (fun d => d.lunUuid == l.uuid)).map
        (fun d => .removeDisk d.key d.controllerKey d.unitNumber))
      (ch || !(rdms.filter (fun d => d.lunUuid == l.uuid)).isEmpty)
      (fun w' hw' => h w' (List.mem_cons_of_mem w hw'))
    exact ⟨specs', ch', by simp only [configure_absent, hl, hres]⟩

/-- C10 (implicit claim): in absent mode the controller-validation and
controller-creation sub-pass is skipped, so a run submits at most one
configuration update, and every operation in it is a remove-disk
operation (in particular, no controller is ever created). -/
theorem c10_absent_invariant (luns : List Lun) (p : Params) (vm : VmState)
    (hs : p.state = RdmState.absent) :
    (reconfigure_vm luns p vm).subs = [] ∨
    ∃ s, (reconfigure_vm luns p vm).subs = [s] ∧
      ∀ op ∈ s, ∃ k ck u, op = DeviceOp.removeDisk k ck u := by
  obtain ⟨st, ct, cl, rd⟩ := p
  replace hs : st = RdmState.absent := hs
  subst hs
  cases hg : get_rdm_info (check_maximums vm.hwVersion ct) RdmState.absent cl
      (vm_get_ctls vm.controllers).units (vm_get_ctls vm.controllers).keySlot
      vm.disks rd with
  | error e =>
    left
    simp [reconfigure_vm, diskPhase, hg]
  | ok du =>
    cases hc : configure_absent luns vm.disks rd [] false with
    | error e =>
      left
      simp [reconfigure_vm, diskPhase, hg, hc]
    | ok pr =>
      obtain ⟨diskSpecs, cdf⟩ := pr
      cases cdf with
      | false =>
        left
        simp [reconfigure_vm, diskPhase, hg, hc]
      | true =>
        right
        refine ⟨diskSpecs, by simp [reconfigure_vm, diskPhase, hg, hc], ?_⟩
        obtain ⟨suffix, hsp, hops, _⟩ := configure_absent_suffix hc
        rw [List.nil_append] at hsp
        subst hsp
        intro op hop
        obtain ⟨d, _, _, _, _, _, _, hope⟩ := hops op hop
        exact ⟨d.key, d.controllerKey, d.unitNumber, hope⟩

/-- Witness for C10 at a concrete absent-mode run: the single submitted
change set contains exactly one remove-disk operation. -/
theorem c10_absent_invariant_witness :
    (reconfigure_vm abLuns cx7p cx7vm).subs = [] ∨
    ∃ s, (reconfigure_vm abLuns cx7p cx7vm).subs = [s] ∧
      ∀ op ∈ s, ∃ k ck u, op = DeviceOp.removeDisk k ck u :=
  c10_absent_invariant abLuns cx7p cx7vm rfl

/-- C7: detach is identity-based, not bus-restricted. In absent mode, for
every attached RDM disk whose backing LUN UUID equals the UUID of the LUN
a requested WWID resolves to, a remove spec carrying that disk's own key,
controller key and unit number is part of a submitted change set — with no
condition whatsoever on which controller bus the disk occupies or on the
allowed-bus list. -/
theorem c7_detach_identity (luns : List Lun) (p : Params) (vm : VmState)
    (hs : p.state = RdmState.absent)
    (hwf : ∀ d ∈ vm.disks, ∃ c ∈ vm.controllers, c.key = d.controllerKey)
    (hres : ∀ w ∈ p.rdmDisk, ∃ l, resolveLun luns w = some l)
    (w : String) (l : Lun) (d : RdmDisk)
    (hw : w ∈ p.rdmDisk) (hl : resolveLun luns w = some l)
    (hd : d ∈ vm.disks) (hdl : d.lunUuid = l.uuid) :
    ∃ s ∈ (reconfigure_vm luns p vm).subs,
      DeviceOp.removeDisk d.key d.controllerKey d.unitNumber ∈ s := by
  obtain ⟨st, ct, cl, rd⟩ := p
  replace hs : st = RdmState.absent := hs
  subst hs
  have hginfo : ∃ du, get_rdm_info (check_maximums vm.hwVersion ct)
      RdmState.absent cl (vm_get_ctls vm.controllers).units
      (vm_get_ctls vm.controllers).keySlot vm.disks rd = .ok du := by
    apply get_rdm_info_absent_ok
    intro x hx
    have := wf_lookup (hwf x hx)
    rwa [vm_get_ctls_eq]
  obtain ⟨du, hg⟩ := hginfo
  obtain ⟨specs', ch', hc⟩ := @configure_absent_total _ vm.disks _ [] false hres
  obtain ⟨hmem, hch⟩ := configure_absent_mem hc w hw l hl d hd hdl
  subst hch
  refine ⟨specs', ?_, hmem⟩
  simp [reconfigure_vm, diskPhase, hg, hc]

/-- Witness for C7 at the spec's scenario C: the matching disk lives on bus
3 while only bus 1 is allowed, and its remove spec is still submitted. -/
theorem c7_detach_identity_witness :
    (3 ∉ cx7p.ctlList) ∧
    ∃ s ∈ (reconfigure_vm abLuns cx7p cx7vm).subs,
      DeviceOp.removeDisk 9 1003 4 ∈ s := by
  refine ⟨by decide, ?_⟩
  have hres : ∀ w ∈ cx7p.rdmDisk, ∃ l, resolveLun abLuns w = some l := by
    intro w hw
    have hww : w = "ab" := by simpa [cx7p] using hw
    subst hww
    exact ⟨⟨"naa.ab", "u1", "dn"⟩, rfl⟩
  exact c7_detach_identity abLuns cx7p cx7vm rfl (by decide) hres
    "ab" ⟨"naa.ab", "u1", "dn"⟩ ⟨9, 1003, 4, "u1"⟩ (by decide) rfl (by decide) rfl

/-- C6 amended: in absent mode, provided every requested WWID resolves to a
LUN presented on the host, a WWID with no matching attached RDM disk
contributes nothing: when none of the requested WWIDs match any disk the
whole run is a no-op — no detach spec is built, nothing is submitted,
`changed=false`, and the VM is untouched. (When a WWID's LUN is not
presented on the host, the run instead fails with a LUN-not-presented
error, as the counterexample shows.) -/
theorem c6_absent_noop (luns : List Lun) (p : Params) (vm : VmState)
    (hs : p.state = RdmState.absent)
    (hwf : ∀ d ∈ vm.disks, ∃ c ∈ vm.controllers, c.key = d.controllerKey)
    (hnm : ∀ w ∈ p.rdmDisk, ∃ l, resolveLun luns w = some l ∧
      ∀ d ∈ vm.disks, ¬ d.lunUuid = l.uuid) :
    reconfigure_vm luns p vm = ⟨.ok false, [], vm⟩ := by
  obtain ⟨st, ct, cl, rd⟩ := p
  replace hs : st = RdmState.absent := hs
  subst hs
  have hginfo : ∃ du, get_rdm_info (check_maximums vm.hwVersion ct)
      RdmState.absent cl (vm_get_ctls vm.controllers).units
      (vm_get_ctls vm.controllers).keySlot vm.disks rd = .ok du := by
    apply get_rdm_info_absent_ok
    intro x hx
    have := wf_lookup (hwf x hx)
    rwa [vm_get_ctls_eq]
  obtain ⟨du, hg⟩ := hginfo
  have hc : configure_absent luns vm.disks rd [] false = .ok ([], false) :=
    configure_absent_noop [] false hnm
  simp [reconfigure_vm, diskPhase, hg, hc]

/-- Witness for C6's amended statement: one attached disk with unrelated
LUN UUID, one requested WWID whose LUN is presented — the absent run is a
no-op. -/
theorem c6_absent_noop_witness :
    reconfigure_vm abLuns ⟨.absent, .paravirtual, [0], ["ab"]⟩
      ⟨[pvCtl0], [⟨5, 1000, 0, "zz"⟩], 13, "/a.vmx"⟩ =
      ⟨.ok false, [], ⟨[pvCtl0], [⟨5, 1000, 0, "zz"⟩], 13, "/a.vmx"⟩⟩ := by
  apply c6_absent_noop
  · rfl
  · decide
  · intro w hw
    have hww : w = "ab" := by simpa using hw
    subst hww
    exact ⟨⟨"naa.ab", "u1", "dn"⟩, rfl, by decide⟩

/-!  Occupancy-map growth lemmas. -/

theorem duLe_refl (du : SlotMap) : duLe du du :=
  fun _ occ h => ⟨occ, h, fun _ hv => hv⟩

theorem duLe_trans {d1 d2 d3 : SlotMap} (h12 : duLe d1 d2) (h23 : duLe d2 d3) :
    duLe d1 d3 := by
  intro b occ1 h1
  obtain ⟨occ2, h2, hs⟩ := h12 b occ1 h1
  obtain ⟨occ3, h3, hs2⟩ := h23 b occ2 h2
  exact ⟨occ3, h3, fun v hv => hs2 v (hs v hv)⟩

theorem assocGet_slotAdd_other {du : SlotMap} {b u b' : Nat} (hne : ¬ b' = b) :
    assocGet (slotAdd du b u) b' = assocGet du b' := by
  induction du with
  | nil => rfl
  | cons p rest ih =>
    simp only [slotAdd, List.map_cons] at ih ⊢
    by_cases hp : (p.1 == b) = true
    · have hpb : p.1 = b := by simpa using hp
      have hp' : (p.1 == b') = false := by
        rw [hpb]
        simp only [beq_eq_false_iff_ne, ne_eq]
        intro hc; exact hne hc.symm
      rw [if_pos hp]
      simp only [assocGet, hp', Bool.false_eq_true, if_false]
      exact ih
    · rw [if_neg hp]
      by_cases hp' : (p.1 == b') = true
      · simp only [assocGet, hp', if_true]
      · simp only [assocGet, hp', Bool.false_eq_true, if_false]
        exact ih

theorem assocGet_slotAdd_none {du : SlotMap} {b u : Nat}
    (h : assocGet du b = none) : assocGet (slotAdd du b u) b = none := by
  induction du with
  | nil => rfl
  | cons p rest ih =>
    by_cases hp : (p.1 == b) = true
    · simp [assocGet, hp] at h
    · have h2 : assocGet rest b = none := by simpa [assocGet, hp] using h
      simp only [slotAdd, List.map_cons] at ih ⊢
      rw [if_neg hp]
      simp only [assocGet, hp, Bool.false_eq_true, if_false]
      exact ih h2

theorem duLe_slotAdd (du : SlotMap) (b u : Nat) : duLe du (slotAdd du b u) := by
  intro b' occ h
  by_cases hb : b' = b
  · subst hb
    exact ⟨u :: occ, assocGet_slotAdd_self h,
      fun v hv => List.mem_cons_of_mem u hv⟩
  · exact ⟨occ, by rw [assocGet_slotAdd_other hb]; exact h, fun v hv => hv⟩

theorem occMem_slotAdd_elim {du : SlotMap} {b u b' v : Nat}
    (h : occMem (slotAdd du b u) b' v) :
    occMem du b' v ∨ (b' = b ∧ v = u) := by
  obtain ⟨occ', hg, hv⟩ := h
  by_cases hb : b' = b
  · subst hb
    cases hdu : assocGet du b' with
    | none => rw [assocGet_slotAdd_none hdu] at hg; exact absurd hg (by simp)
    | some occ =>
      rw [assocGet_slotAdd_self hdu] at hg
      have hocc : occ' = u :: occ := (Option.some.inj hg).symm
      subst hocc
      rcases List.mem_cons.mp hv with hv | hv
      · exact Or.inr ⟨rfl, hv⟩
      · exact Or.inl ⟨occ, hdu, hv⟩
  · rw [assocGet_slotAdd_other hb] at hg
    exact Or.inl ⟨occ', hg, hv⟩

theorem scanSlots_none_mono {cl : List Nat} {cmax : Nat} {d1 d2 : SlotMap}
    (h : scanSlots cl cmax d1 = .ok none) (hle : duLe d1 d2) :
    scanSlots cl cmax d2 = .ok none := by
  apply scanSlots_of_full
  intro c hc
  obtain ⟨occ, hg, hful⟩ := scanSlots_ok_none h c hc
  obtain ⟨occ2, hg2, hsub⟩ := hle c occ hg
  exact ⟨occ2, hg2, fun v hv => hsub v (hful v hv)⟩

theorem create_rdm_ok_inv {cl : List Nat} {cmax : Nat} {sk : List (Nat × Int)}
    {du : SlotMap} {lun : Lun} {file : String} {specs : List DeviceOp}
    {ch : Bool} {out : SlotMap × List DeviceOp × Bool}
    (h : create_rdm cl cmax sk du lun file specs ch = .ok out) :
    (scanSlots cl cmax du = .ok none ∧ out = (du, specs, ch)) ∨
    (∃ b u k, scanSlots cl cmax du = .ok (some (b, u)) ∧ assocGet sk b = some k ∧
      out = (slotAdd du b u,
        specs ++ [.addDisk (-100 - (u : Int)) k u lun.uuid lun.deviceName file],
        true)) := by
  cases hs : scanSlots cl cmax du with
  | error e => simp [create_rdm, hs] at h
  | ok o =>
    cases o with
    | none =>
      simp [create_rdm, hs] at h
      exact Or.inl ⟨rfl, h.symm⟩
    | some p =>
      obtain ⟨b, u⟩ := p
      obtain ⟨_, occ, hocc, _⟩ := scanSlots_ok_some hs
      cases hk : assocGet sk b with
      | none => simp [create_rdm, hs, slotAddE_ok hocc, hk] at h
      | some k =>
        simp only [create_rdm, hs, slotAddE_ok hocc, hk] at h
        injection h with hh
        exact Or.inr ⟨b, u, k, rfl, hk, hh.symm⟩

/-- Master characterisation of a successful present-mode attach loop: the
spec list grows by a suffix of attach specs, the change flag records
exactly whether the suffix is nonempty, the occupancy map only grows, its
key set is unchanged, every appended spec carries the UUID of a resolved
requested LUN and its reserved slot, every new occupancy mark stems from an
appended spec, and every requested WWID is either already matched by an
existing disk, served by an appended spec, or was silently skipped with the
final occupancy map exhausted. -/
theorem configure_present_master {luns : List Lun} {vmPath : String}
    {ctlList : List Nat} {cmax : Nat} {sk : List (Nat × Int)}
    {rdms : List RdmDisk} :
    ∀ {req : List String} {du : SlotMap} {specs : List DeviceOp} {ch : Bool}
      {du' : SlotMap} {specs' : List DeviceOp} {ch' : Bool},
    configure_present luns vmPath ctlList cmax sk rdms req du specs ch =
      .ok (du', specs', ch') →
    ∃ suffix, specs' = specs ++ suffix ∧
      ch' = (ch || !suffix.isEmpty) ∧
      duLe du du' ∧
      (∀ b, (assocGet du' b).isSome = (assocGet du b).isSome) ∧
      (∀ op ∈ suffix, ∃ w ∈ req, ∃ l, resolveLun luns w = some l ∧
        ∃ (k : Int) (u : Nat) (dn f : String),
          op = DeviceOp.addDisk (-100 - (u : Int)) k u l.uuid dn f ∧
          ∃ b, assocGet sk b = some k ∧ occMem du' b u) ∧
      (∀ b v, occMem du' b v → occMem du b v ∨
        ∃ op ∈ suffix, ∃ (k : Int) (u : Nat) (dn f luu : String),
          op = DeviceOp.addDisk (-100 - (u : Int)) k u luu dn f ∧
          v = u ∧ assocGet sk b = some k) ∧
      (∀ w ∈ req, ∃ l, resolveLun luns w = some l ∧
        ((∃ d ∈ rdms, d.lunUuid = l.uuid) ∨
         (∃ op ∈ suffix, ∃ (k : Int) (u : Nat) (dn f : String),
           op = DeviceOp.addDisk (-100 - (u : Int)) k u l.uuid dn f) ∨
         (scanSlots ctlList cmax du' = .ok none ∧
           ∃ r, computeRdmId l.canonicalName = .ok r))) := by
  intro req
  induction req with
  | nil =>
    intro du specs ch du' specs' ch' h
    simp only [configure_present] at h
    injection h with hh
    injection hh with h1 h23
    injection h23 with h2 h3
    subst h1; subst h2; subst h3
    refine ⟨[], by simp, by simp, duLe_refl du, fun b => rfl, by simp, ?_, by simp⟩
    intro b v hv
    exact Or.inl hv
  | cons w rest ih =>
    intro du specs ch du' specs' ch' h
    simp only [configure_present] at h
    cases hr : resolveLun luns w with
    | none => rw [hr] at h; exact absurd h (by simp)
    | some l =>
      rw [hr] at h
      by_cases hskip : rdms.any (fun d => l.uuid == d.lunUuid) = true
      · have h2 : configure_present luns vmPath ctlList cmax sk rdms rest du specs ch =
            .ok (du', specs', ch') := by
          have h3 : (if rdms.any (fun d => l.uuid == d.lunUuid) = true then
              configure_present luns vmPath ctlList cmax sk rdms rest du specs ch
            else
              match computeRdmId l.canonicalName with
              | .error e => .error e
              | .ok rdmid =>
                match create_rdm ctlList cmax sk du l
                    (strReplace vmPath ".vmx" ("_RDM" ++ rdmid ++ ".vmdk")) specs ch with
                | .error e => .error e
                | .ok (du1, specs1, ch1) =>
                  configure_present luns vmPath ctlList cmax sk rdms rest du1 specs1 ch1) =
              .ok (du', specs', ch') := h
          rwa [if_pos hskip] at h3
        obtain ⟨suffix, hsp, hch, hle, hsome, hops, hmarks, hall⟩ := ih h2
        have hmatch : ∃ d ∈ rdms, d.lunUuid = l.uuid := by
          obtain ⟨d, hd, hdl⟩ := List.any_eq_true.mp hskip
          exact ⟨d, hd, by simpa using (by simpa using hdl : l.uuid = d.lunUuid).symm⟩
        refine ⟨suffix, hsp, hch, hle, hsome, ?_, hmarks, ?_⟩
        · intro op hop
          obtain ⟨w', hw', rest'⟩ := hops op hop
          exact ⟨w', List.mem_cons_of_mem w hw', rest'⟩
        · intro w' hw'
          rcases List.mem_cons.mp hw' with hww | hww
          · subst hww
            exact ⟨l, hr, Or.inl hmatch⟩
          · exact hall w' hww
      · have h2 : (match computeRdmId l.canonicalName with
            | .error e => .error e
            | .ok rdmid =>
              match create_rdm ctlList cmax sk du l
                  (strReplace vmPath ".vmx" ("_RDM" ++ rdmid ++ ".vmdk")) specs ch with
              | .error e => .error e
              | .ok (du1, specs1, ch1) =>
                configure_present luns vmPath ctlList cmax sk rdms rest du1 specs1 ch1) =
            Except.ok (du', specs', ch') := by
          have h3 : (if rdms.any (fun d => l.uuid == d.lunUuid) = true then
              configure_present luns vmPath ctlList cmax sk rdms rest du specs ch
            else
              match computeRdmId l.canonicalName with
              | .error e => .error e
              | .ok rdmid =>
                match create_rdm ctlList cmax sk du l
                    (strReplace vmPath ".vmx" ("_RDM" ++ rdmid ++ ".vmdk")) specs ch with
                | .error e => .error e
                | .ok (du1, specs1, ch1) =>
                  configure_present luns vmPath ctlList cmax sk rdms rest du1 specs1 ch1) =
              .ok (du', specs', ch') := h
          rwa [if_neg hskip] at h3
        cases hrid : computeRdmId l.canonicalName with
        | error e => rw [hrid] at h2; simp at h2
        | ok rid =>
          rw [hrid] at h2
          have h4 : (match create_rdm ctlList cmax sk du l
              (strReplace vmPath ".vmx" ("_RDM" ++ rid ++ ".vmdk")) specs ch with
            | .error e => (.error e : Except String (SlotMap × List DeviceOp × Bool))
            | .ok (du1, specs1, ch1) =>
              configure_present luns vmPath ctlList cmax sk rdms rest du1 specs1 ch1) =
              .ok (du', specs', ch') := h2
          cases hcr : create_rdm ctlList cmax sk du l
              (strReplace vmPath ".vmx" ("_RDM" ++ rid ++ ".vmdk")) specs ch with
          | error e => rw [hcr] at h4; simp at h4
          | ok out =>
            rw [hcr] at h4
            obtain ⟨du1, specs1, ch1⟩ := out
            have h3 : configure_present luns vmPath ctlList cmax sk rdms rest
                du1 specs1 ch1 = .ok (du', specs', ch') := h4
            rcases create_rdm_ok_inv hcr with ⟨hscannone, hout⟩ |
              ⟨b, u, k, hscan, hk, hout⟩
            · injection hout with e1 e23
              injection e23 with e2 e3
              subst e1; subst e2; subst e3
              obtain ⟨suffix, hsp, hch, hle, hsome, hops, hmarks, hall⟩ := ih h3
              refine ⟨suffix, hsp, hch, hle, hsome, ?_, hmarks, ?_⟩
              · intro op hop
                obtain ⟨w', hw', rest'⟩ := hops op hop
                exact ⟨w', List.mem_cons_of_mem w hw', rest'⟩
              · intro w' hw'
                rcases List.mem_cons.mp hw' with hww | hww
                · subst hww
                  exact ⟨l, hr, Or.inr (Or.inr
                    ⟨scanSlots_none_mono hscannone hle, rid, hrid⟩)⟩
                · exact hall w' hww
            · injection hout with e1 e23
              injection e23 with e2 e3
              subst e1; subst e2; subst e3
              obtain ⟨suffix1, hsp, hch, hle, hsome, hops, hmarks, hall⟩ := ih h3
              obtain ⟨_, occ, hocc, _⟩ := scanSlots_ok_some hscan
              have hmark1 : occMem (slotAdd du b u) b u :=
                ⟨u :: occ, assocGet_slotAdd_self hocc, List.mem_cons_self u occ⟩
              have hmark' : occMem du' b u := by
                obtain ⟨occ1, hg1, hv1⟩ := hmark1
                obtain ⟨occ2, hg2, hsub⟩ := hle b occ1 hg1
                exact ⟨occ2, hg2, hsub u hv1⟩
              refine ⟨DeviceOp.addDisk (-100 - (u : Int)) k u l.uuid l.deviceName
                  (strReplace vmPath ".vmx" ("_RDM" ++ rid ++ ".vmdk")) :: suffix1,
                ?_, ?_, duLe_trans (duLe_slotAdd du b u) hle, ?_, ?_, ?_, ?_⟩
              · rw [hsp]
                simp
              · rw [hch]
                simp
              · intro b'
                rw [hsome b', isSome_assocGet_slotAdd]
              · intro op hop
                rcases List.mem_cons.mp hop with hop | hop
                · subst hop
                  exact ⟨w, List.mem_cons_self w rest, l, hr, k, u, l.deviceName,
                    strReplace vmPath ".vmx" ("_RDM" ++ rid ++ ".vmdk"), rfl,
                    b, hk, hmark'⟩
                · obtain ⟨w', hw', l', hl', k', u', dn', f', hop', b', hk', hm'⟩ :=
                    hops op hop
                  exact ⟨w', List.mem_cons_of_mem w hw', l', hl', k', u', dn', f',
                    hop', b', hk', hm'⟩
              · intro b' v hm'
                rcases hmarks b' v hm' with hm1 | hm1
                · rcases occMem_slotAdd_elim hm1 with hm0 | ⟨hbb, hvu⟩
                  · exact Or.inl hm0
                  · subst hbb
                    exact Or.inr ⟨DeviceOp.addDisk (-100 - (u : Int)) k u
                        l.uuid l.deviceName
                        (strReplace vmPath ".vmx" ("_RDM" ++ rid ++ ".vmdk")),
                      List.mem_cons_self _ _, k, u, l.deviceName,
                      strReplace vmPath ".vmx" ("_RDM" ++ rid ++ ".vmdk"), l.uuid,
                      rfl, hvu, hk⟩
                · obtain ⟨op, hop, rest'⟩ := hm1
                  exact Or.inr ⟨op, List.mem_cons_of_mem _ hop, rest'⟩
              · intro w' hw'
                rcases List.mem_cons.mp hw' with hww | hww
                · subst hww
                  exact ⟨l, hr, Or.inr (Or.inl
                    ⟨DeviceOp.addDisk (-100 - (u : Int)) k u l.uuid l.deviceName
                        (strReplace vmPath ".vmx" ("_RDM" ++ rid ++ ".vmdk")),
                      List.mem_cons_self _ _, k, u, l.deviceName,
                      strReplace vmPath ".vmx" ("_RDM" ++ rid ++ ".vmdk"), rfl⟩)⟩
                · obtain ⟨l', hl', hdisj⟩ := hall w' hww
                  refine ⟨l', hl', ?_⟩
                  rcases hdisj with hd | hd | hd
                  · exact Or.inl hd
                  · obtain ⟨op, hop, rest'⟩ := hd
                    exact Or.inr (Or.inl ⟨op, List.mem_cons_of_mem _ hop, rest'⟩)
                  · exact Or.inr (Or.inr hd)

/-- When every requested WWID resolves and is either already attached or
faces an exhausted occupancy map (with a well-formed RDM file suffix), the
present-mode loop is an exact no-op. -/
theorem configure_present_noop {luns : List Lun} {vmPath : String}
    {ctlList : List Nat} {cmax : Nat} {sk : List (Nat × Int)}
    {rdms : List RdmDisk} :
    ∀ {req : List String} {du : SlotMap} (specs : List DeviceOp) (ch : Bool),
    (∀ w ∈ req, ∃ l, resolveLun luns w = some l ∧
      ((∃ d ∈ rdms, d.lunUuid = l.uuid) ∨
       (scanSlots ctlList cmax du = .ok none ∧
         ∃ r, computeRdmId l.canonicalName = .ok r))) →
    configure_present luns vmPath ctlList cmax sk rdms req du specs ch =
      .ok (du, specs, ch) := by
  intro req
  induction req with
  | nil => intro du specs ch _; rfl
  | cons w rest ih =>
    intro du specs ch h
    obtain ⟨l, hl, hdisj⟩ := h w (List.mem_cons_self w rest)
    have hrest := fun w' hw' => h w' (List.mem_cons_of_mem w hw')
    by_cases hskip : rdms.any (fun d => l.uuid == d.lunUuid) = true
    · simp only [configure_present, hl, if_pos hskip]
      exact ih specs ch hrest
    · have hnom : ¬ ∃ d ∈ rdms, d.lunUuid = l.uuid := by
        rintro ⟨d, hd, hdl⟩
        exact hskip (List.any_eq_true.mpr ⟨d, hd, by simp [hdl]⟩)
      rcases hdisj with hd | ⟨hnone, r, hrid⟩
      · exact absurd hd hnom
      · simp only [configure_present, hl, if_neg hskip, hrid,
          create_rdm_scan_none hnone]
        exact ih specs ch hrest

/-- The capacity check of `get_rdm_info` fails exactly when moving toward
present with `used + (requested - presented)` strictly above
`cmax * |allowedBuses|`, where `presented` counts matching disks. -/
theorem get_rdm_info_error_iff {cmax : Nat} {state : RdmState}
    {ctlList : List Nat} {units : List (Nat × String)} {ks : List (Int × Nat)}
    {rdms : List RdmDisk} {requested : List String}
    (hwf : ∀ d ∈ rdms, ∃ b, assocGet ks d.controllerKey = some b ∧
      (assocGet (units.map (fun q => (q.1, ([7] : List Nat)))) b).isSome = true) :
    (∃ e, get_rdm_info cmax state ctlList units ks rdms requested = .error e) ↔
      (state = RdmState.present ∧
        (rdms.length : Int) +
            ((requested.length : Int) - wwidPresentedCount rdms requested) >
          (cmax : Int) * ctlList.length) := by
  obtain ⟨du', hdu⟩ := buildDiskUnits_total hwf
  constructor
  · rintro ⟨e, he⟩
    simp only [get_rdm_info, hdu] at he
    split_ifs at he with hc
    exact ⟨hc.2, hc.1⟩
  · rintro ⟨hst, hgt⟩
    refine ⟨capacityMsg
      ((rdms.length : Int) +
        ((requested.length : Int) - wwidPresentedCount rdms requested))
      ((cmax : Int) * ctlList.length), ?_⟩
    simp only [get_rdm_info, hdu]
    have hcond : (rdms.length : Int) +
        ((requested.length : Int) - wwidPresentedCount rdms requested) >
          (cmax : Int) * ctlList.length ∧ state = RdmState.present := ⟨hgt, hst⟩
    rw [if_pos hcond]

/-- C3 amended: the per-controller capacity is 64 exactly when paravirtual
with hardware version at least 14 (else 15); the capacity check fails iff
moving toward present with (number of existing RDM disks) + (requested
count minus the number of existing RDM disks whose LUN UUID
case-insensitively contains some requested WWID, as an integer) strictly
greater than capacity × |allowed buses| — so it succeeds at the boundary
and never fails in absent mode. -/
theorem c3_capacity (hw : Nat) (t : CtlType) (state : RdmState)
    (ctlList : List Nat) (units : List (Nat × String)) (ks : List (Int × Nat))
    (rdms : List RdmDisk) (requested : List String)
    (hwf : ∀ d ∈ rdms, ∃ b, assocGet ks d.controllerKey = some b ∧
      (assocGet (units.map (fun q => (q.1, ([7] : List Nat)))) b).isSome = true) :
    (check_maximums hw t = 64 ↔ (14 ≤ hw ∧ t = CtlType.paravirtual)) ∧
    (check_maximums hw t = 64 ∨ check_maximums hw t = 15) ∧
    ∀ cmax, (∃ e, get_rdm_info cmax state ctlList units ks rdms requested =
        .error e) ↔
      (state = RdmState.present ∧
        (rdms.length : Int) +
            ((requested.length : Int) - wwidPresentedCount rdms requested) >
          (cmax : Int) * ctlList.length) := by
  refine ⟨?_, ?_, fun cmax => get_rdm_info_error_iff hwf⟩
  · unfold check_maximums
    split_ifs with hc
    · simp [hc]
    · simp [hc]
  · unfold check_maximums
    split_ifs
    · exact Or.inl rfl
    · exact Or.inr rfl

/-- Witness for C3's amended statement at a concrete input: the error-iff
characterisation instantiated at the counterexample data. -/
theorem c3_capacity_witness :
    ((check_maximums 13 CtlType.paravirtual = 64 ↔
        (14 ≤ 13 ∧ CtlType.paravirtual = CtlType.paravirtual)) ∧
      (check_maximums 13 CtlType.paravirtual = 64 ∨
        check_maximums 13 CtlType.paravirtual = 15) ∧
      ∀ cmax, (∃ e, get_rdm_info cmax RdmState.present [0] cx3units cx3keySlot
          cx3disks ["aa", "bb"] = .error e) ↔
        (RdmState.present = RdmState.present ∧
          (cx3disks.length : Int) +
              (((["aa", "bb"] : List String).length : Int) -
                wwidPresentedCount cx3disks ["aa", "bb"]) >
            (cmax : Int) * ([0] : List Nat).length)) ∧
    (∃ e, get_rdm_info 15 RdmState.present [0] cx3units cx3keySlot cx3disks
      ["aa", "bb"] = .error e) := by
  have hwf : ∀ d ∈ cx3disks, ∃ b, assocGet cx3keySlot d.controllerKey = some b ∧
      (assocGet (cx3units.map (fun q => (q.1, ([7] : List Nat)))) b).isSome
        = true := by
    intro d hd
    have hck : d.controllerKey = 1000 := by
      have : ∀ x ∈ cx3disks, x.controllerKey = 1000 := by decide
      exact this d hd
    exact ⟨0, by rw [hck]; rfl, rfl⟩
  have happ := c3_capacity 13 CtlType.paravirtual RdmState.present [0]
    cx3units cx3keySlot cx3disks ["aa", "bb"] hwf
  refine ⟨happ, ?_⟩
  apply (happ.2.2 15).mpr
  refine ⟨rfl, ?_⟩
  decide

/-- C2 amended: only in present mode, for every existing controller whose
bus is in the allowed-bus list, if the requested controller type string
does not occur as a substring of the controller's lowercased kind name, the
whole run fails with the controller-type-mismatch error and nothing is ever
submitted (no controllers created, no disks touched). In absent mode no
such validation happens, and a kind merely containing the requested string
(e.g. lsilogicsas when lsilogic is requested) passes. -/
theorem c2_type_guard (luns : List Lun) (p : Params) (vm : VmState)
    (c : Controller) (hs : p.state = RdmState.present)
    (hnd : (vm.controllers.map (·.busNumber)).Nodup)
    (hc : c ∈ vm.controllers) (hbus : c.busNumber ∈ p.ctlList)
    (hkind : strFind c.kind p.ctlType.str = false) :
    reconfigure_vm luns p vm = ⟨.error ctlTypeMsg, [], vm⟩ := by
  obtain ⟨st, ct, cl, rd⟩ := p
  replace hs : st = RdmState.present := hs
  subst hs
  have hget : assocGet (vm_get_ctls vm.controllers).units c.busNumber =
      some c.kind := by
    rw [vm_get_ctls_eq]
    exact assocGet_unFold_nodup hnd hc []
  have hmem := assocGet_mem hget
  have hfail : ctl_check_types_fail (vm_get_ctls vm.controllers).units
      ct.str cl = true := by
    apply List.any_eq_true.mpr
    refine ⟨(c.busNumber, c.kind), hmem, ?_⟩
    simp only [Bool.and_eq_true]
    exact ⟨by simpa [List.contains, List.elem_iff] using hbus, by simp [hkind]⟩
  simp [reconfigure_vm, hfail]

/-- Witness for C2's amended statement: a present-mode run against a
BusLogic controller on allowed bus 0 with paravirtual requested fails with
the controller-type-mismatch message before any submission. -/
theorem c2_type_guard_witness :
    reconfigure_vm abLuns ⟨.present, .paravirtual, [0], ["ab"]⟩ cx2vm =
      ⟨.error ctlTypeMsg, [], cx2vm⟩ :=
  c2_type_guard abLuns ⟨.present, .paravirtual, [0], ["ab"]⟩ cx2vm
    ⟨0, 1000, "virtualbuslogiccontroller"⟩ rfl (by decide) (by decide)
    (by decide) (by decide)

/-- C8 amended: the skip decision and the capacity-check count use
different criteria. A requested WWID is skipped iff the LUN resolved by
exact canonical-name lookup has a UUID exactly equal to some attached
disk's LUN UUID (given a free slot exists, so that silent exhaustion cannot
mask the distinction); the capacity check's presented count instead counts
attached disks whose LUN UUID case-insensitively contains at least one
requested WWID. -/
theorem c8_criteria (luns : List Lun) (vmPath : String) (ctlList : List Nat)
    (cmax : Nat) (sk : List (Nat × Int)) (rdms : List RdmDisk) (du : SlotMap)
    (specs : List DeviceOp) (ch : Bool) (w : String) (l : Lun)
    (requested : List String) (b u : Nat) (k : Int)
    (hl : resolveLun luns w = some l)
    (hscan : scanSlots ctlList cmax du = .ok (some (b, u)))
    (hk : assocGet sk b = some k) :
    (configure_present luns vmPath ctlList cmax sk rdms [w] du specs ch =
        .ok (du, specs, ch) ↔ ∃ d ∈ rdms, d.lunUuid = l.uuid) ∧
    wwidPresentedCount rdms requested =
      (rdms.filter (fun d => diskMatchesSome requested d)).length ∧
    ∀ d : RdmDisk, diskMatchesSome requested d = true ↔
      ∃ w' ∈ requested, strFind (lowerStr d.lunUuid) (lowerStr w') = true := by
  obtain ⟨_, occ, hocc, _⟩ := scanSlots_ok_some hscan
  refine ⟨⟨?_, ?_⟩, List.countP_eq_length_filter _ _, fun d => List.any_eq_true⟩
  · intro h
    by_cases hany : rdms.any (fun d => l.uuid == d.lunUuid) = true
    · obtain ⟨d, hd, hdl⟩ := List.any_eq_true.mp hany
      exact ⟨d, hd, (by simpa using hdl : l.uuid = d.lunUuid).symm⟩
    · exfalso
      cases hrid : computeRdmId l.canonicalName with
      | error e =>
        rw [show configure_present luns vmPath ctlList cmax sk rdms [w] du specs
            ch = .error e from by
          simp only [configure_present, hl, if_neg hany, hrid]] at h
        exact absurd h (by simp)
      | ok rid =>
        rw [show configure_present luns vmPath ctlList cmax sk rdms [w] du specs
            ch = .ok (slotAdd du b u, specs ++
              [.addDisk (-100 - (u : Int)) k u l.uuid l.deviceName
                (strReplace vmPath ".vmx" ("_RDM" ++ rid ++ ".vmdk"))], true)
            from by
          simp only [configure_present, hl, if_neg hany, hrid,
            create_rdm_scan_some hscan hocc hk]] at h
        injection h with hh
        have hsp : specs ++ [DeviceOp.addDisk (-100 - (u : Int)) k u l.uuid
            l.deviceName (strReplace vmPath ".vmx" ("_RDM" ++ rid ++ ".vmdk"))] =
            specs := (congrArg (fun q => q.2.1) hh)
        have hlen := congrArg List.length hsp
        simp at hlen
  · intro hmatch
    obtain ⟨d, hd, hdl⟩ := hmatch
    have hany : rdms.any (fun x => l.uuid == x.lunUuid) = true :=
      List.any_eq_true.mpr ⟨d, hd, by simp [hdl]⟩
    simp only [configure_present, hl, if_pos hany]

/-- Witness for C8's amended statement at the counterexample data: the
skip-iff and the count characterisation, instantiated concretely, plus the
two criteria actually disagreeing there. -/
theorem c8_criteria_witness :
    ((configure_present cx8luns "/a.vmx" [0] 15 [(0, 1000)] cx8disks ["abc"]
        [(0, [7])] [] false = .ok ([(0, [7])], [], false) ↔
        ∃ d ∈ cx8disks, d.lunUuid = ("xyz" : String)) ∧
      wwidPresentedCount cx8disks ["abc"] =
        (cx8disks.filter (fun d => diskMatchesSome ["abc"] d)).length ∧
      ∀ d : RdmDisk, diskMatchesSome ["abc"] d = true ↔
        ∃ w' ∈ (["abc"] : List String),
          strFind (lowerStr d.lunUuid) (lowerStr w') = true) ∧
    wwidPresentedCount cx8disks ["abc"] = 0 := by
  have happ := c8_criteria cx8luns "/a.vmx" [0] 15 [(0, 1000)] cx8disks
    [(0, [7])] [] false "abc" ⟨"naa.abc", "xyz", "dn"⟩ ["abc"] 0 0 1000
    rfl rfl rfl
  exact ⟨happ, by decide⟩

/-- C9 amended: an empty change set is submitted only as the disk-phase
submission following a nonempty controller-creation submission (the
persisting change flag); in every run the submission list is empty, a
single nonempty change set, or a nonempty controller-creation change set
followed by the disk-phase change set. When nothing is submitted the run
reports no change and leaves the VM untouched. -/
theorem c9_empty_submission (luns : List Lun) (p : Params) (vm : VmState) :
    ((reconfigure_vm luns p vm).subs = [] ∨
     (∃ s, (reconfigure_vm luns p vm).subs = [s] ∧ s ≠ []) ∨
     (∃ s t, (reconfigure_vm luns p vm).subs = [s, t] ∧ s ≠ [])) ∧
    ((reconfigure_vm luns p vm).subs = [] →
      (reconfigure_vm luns p vm).vm = vm ∧
      ∀ bres, (reconfigure_vm luns p vm).res = .ok bres → bres = false) := by
  obtain ⟨st, ct, cl, rd⟩ := p
  cases st with
  | absent =>
    cases hg : get_rdm_info (check_maximums vm.hwVersion ct) RdmState.absent cl
        (vm_get_ctls vm.controllers).units (vm_get_ctls vm.controllers).keySlot
        vm.disks rd with
    | error e =>
      constructor
      · left; simp [reconfigure_vm, diskPhase, hg]
      · intro _
        refine ⟨by simp [reconfigure_vm, diskPhase, hg], ?_⟩
        intro bres hres
        rw [show (reconfigure_vm luns ⟨.absent, ct, cl, rd⟩ vm).res = .error e
          from by simp [reconfigure_vm, diskPhase, hg]] at hres
        exact absurd hres (by simp)
    | ok du =>
      cases hcc : configure_absent luns vm.disks rd [] false with
      | error e =>
        constructor
        · left; simp [reconfigure_vm, diskPhase, hg, hcc]
        · intro _
          refine ⟨by simp [reconfigure_vm, diskPhase, hg, hcc], ?_⟩
          intro bres hres
          rw [show (reconfigure_vm luns ⟨.absent, ct, cl, rd⟩ vm).res = .error e
            from by simp [reconfigure_vm, diskPhase, hg, hcc]] at hres
          exact absurd hres (by simp)
      | ok pr =>
        obtain ⟨ds, cdf⟩ := pr
        cases cdf with
        | false =>
          constructor
          · left; simp [reconfigure_vm, diskPhase, hg, hcc]
          · intro _
            refine ⟨by simp [reconfigure_vm, diskPhase, hg, hcc], ?_⟩
            intro bres hres
            rw [show (reconfigure_vm luns ⟨.absent, ct, cl, rd⟩ vm).res =
                .ok false from by simp [reconfigure_vm, diskPhase, hg, hcc]]
              at hres
            injection hres with hh
            exact hh.symm
        | true =>
          constructor
          · right; left
            refine ⟨ds, by simp [reconfigure_vm, diskPhase, hg, hcc], ?_⟩
            obtain ⟨suffix, hsp, _, hch⟩ := configure_absent_suffix hcc
            rw [List.nil_append] at hsp
            subst hsp
            simp only [Bool.false_or] at hch
            intro hnil
            rw [hnil] at hch
            simp at hch
          · intro hsubs
            rw [show (reconfigure_vm luns ⟨.absent, ct, cl, rd⟩ vm).subs =
                [ds] from by simp [reconfigure_vm, diskPhase, hg, hcc]] at hsubs
            exact absurd hsubs (by simp)
  | present =>
    by_cases hfail : ctl_check_types_fail (vm_get_ctls vm.controllers).units
        ct.str cl = true
    · constructor
      · left; simp [reconfigure_vm, hfail]
      · intro _
        refine ⟨by simp [reconfigure_vm, hfail], ?_⟩
        intro bres hres
        rw [show (reconfigure_vm luns ⟨.present, ct, cl, rd⟩ vm).res =
            .error ctlTypeMsg from by simp [reconfigure_vm, hfail]] at hres
        exact absurd hres (by simp)
    · by_cases hcre : (ctl_create_new ct cl (vm_get_ctls vm.controllers).units
          vm.controllers).isEmpty = true
      · cases hg : get_rdm_info (check_maximums vm.hwVersion ct)
            RdmState.present cl (vm_get_ctls vm.controllers).units
            (vm_get_ctls vm.controllers).keySlot vm.disks rd with
        | error e =>
          constructor
          · left; simp [reconfigure_vm, diskPhase, hfail, hcre, hg]
          · intro _
            refine ⟨by simp [reconfigure_vm, diskPhase, hfail, hcre, hg], ?_⟩
            intro bres hres
            rw [show (reconfigure_vm luns ⟨.present, ct, cl, rd⟩ vm).res =
                .error e from by
              simp [reconfigure_vm, diskPhase, hfail, hcre, hg]] at hres
            exact absurd hres (by simp)
        | ok du =>
          cases hcp : configure_present luns vm.vmPathName cl
              (check_maximums vm.hwVersion ct)
              (vm_get_ctls vm.controllers).slotKey vm.disks rd du [] false with
          | error e =>
            constructor
            · left; simp [reconfigure_vm, diskPhase, hfail, hcre, hg, hcp]
            · intro _
              refine ⟨by simp [reconfigure_vm, diskPhase, hfail, hcre, hg, hcp],
                ?_⟩
              intro bres hres
              rw [show (reconfigure_vm luns ⟨.present, ct, cl, rd⟩ vm).res =
                  .error e from by
                simp [reconfigure_vm, diskPhase, hfail, hcre, hg, hcp]] at hres
              exact absurd hres (by simp)
          | ok out =>
            obtain ⟨du1, ds, cdf⟩ := out
            cases cdf with
            | false =>
              constructor
              · left; simp [reconfigure_vm, diskPhase, hfail, hcre, hg, hcp]
              · intro _
                refine ⟨by simp [reconfigure_vm, diskPhase, hfail, hcre, hg, hcp],
                  ?_⟩
                intro bres hres
                rw [show (reconfigure_vm luns ⟨.present, ct, cl, rd⟩ vm).res =
                    .ok false from by
                  simp [reconfigure_vm, diskPhase, hfail, hcre, hg, hcp]] at hres
                injection hres with hh
                exact hh.symm
            | true =>
              constructor
              · right; left
                refine ⟨ds,
                  by simp [reconfigure_vm, diskPhase, hfail, hcre, hg, hcp], ?_⟩
                obtain ⟨suffix, hsp, hch, _⟩ := configure_present_master hcp
                rw [List.nil_append] at hsp
                subst hsp
                simp only [Bool.false_or] at hch
                intro hnil
                rw [hnil] at hch
                simp at hch
              · intro hsubs
                rw [show (reconfigure_vm luns ⟨.present, ct, cl, rd⟩ vm).subs =
                    [ds] from by
                  simp [reconfigure_vm, diskPhase, hfail, hcre, hg, hcp]] at hsubs
                exact absurd hsubs (by simp)
      · have hcrne : ctl_create_new ct cl (vm_get_ctls vm.controllers).units
            vm.controllers ≠ [] := by
          intro hnil
          rw [hnil] at hcre
          exact hcre rfl
        constructor
        · set vmA := applyOps vm (ctl_create_new ct cl
            (vm_get_ctls vm.controllers).units vm.controllers) with hvmA
          cases hg : get_rdm_info (check_maximums vm.hwVersion ct)
              RdmState.present cl (vm_get_ctls vmA.controllers).units
              (vm_get_ctls vmA.controllers).keySlot vmA.disks rd with
          | error e =>
            right; left
            exact ⟨_, by simp [reconfigure_vm, diskPhase, hfail, hcre, hvmA, hg],
              hcrne⟩
          | ok du =>
            cases hcp : configure_present luns vmA.vmPathName cl
                (check_maximums vm.hwVersion ct)
                (vm_get_ctls vmA.controllers).slotKey vmA.disks rd du []
                true with
            | error e =>
              right; left
              exact ⟨_,
                by simp [reconfigure_vm, diskPhase, hfail, hcre, hvmA, hg, hcp],
                hcrne⟩
            | ok out =>
              obtain ⟨du1, ds, cdf⟩ := out
              have hcdf : cdf = true := by
                obtain ⟨suffix, _, hch, _⟩ := configure_present_master hcp
                rw [hch]
                simp
              subst hcdf
              right; right
              exact ⟨_, ds,
                by simp [reconfigure_vm, diskPhase, hfail, hcre, hvmA, hg, hcp],
                hcrne⟩
        · intro hsubs
          exfalso
          set vmA := applyOps vm (ctl_create_new ct cl
            (vm_get_ctls vm.controllers).units vm.controllers) with hvmA
          cases hg : get_rdm_info (check_maximums vm.hwVersion ct)
              RdmState.present cl (vm_get_ctls vmA.controllers).units
              (vm_get_ctls vmA.controllers).keySlot vmA.disks rd with
          | error e =>
            rw [show (reconfigure_vm luns ⟨.present, ct, cl, rd⟩ vm).subs =
                [ctl_create_new ct cl (vm_get_ctls vm.controllers).units
                  vm.controllers] from by
              simp [reconfigure_vm, diskPhase, hfail, hcre, hvmA, hg]] at hsubs
            exact absurd hsubs (by simp)
          | ok du =>
            cases hcp : configure_present luns vmA.vmPathName cl
                (check_maximums vm.hwVersion ct)
                (vm_get_ctls vmA.controllers).slotKey vmA.disks rd du []
                true with
            | error e =>
              rw [show (reconfigure_vm luns ⟨.present, ct, cl, rd⟩ vm).subs =
                  [ctl_create_new ct cl (vm_get_ctls vm.controllers).units
                    vm.controllers] from by
                simp [reconfigure_vm, diskPhase, hfail, hcre, hvmA, hg, hcp]]
                at hsubs
              exact absurd hsubs (by simp)
            | ok out =>
              obtain ⟨du1, ds, cdf⟩ := out
              have hcdf : cdf = true := by
                obtain ⟨suffix, _, hch, _⟩ := configure_present_master hcp
                rw [hch]
                simp
              subst hcdf
              rw [show (reconfigure_vm luns ⟨.present, ct, cl, rd⟩ vm).subs =
                  [ctl_create_new ct cl (vm_get_ctls vm.controllers).units
                    vm.controllers, ds] from by
                simp [reconfigure_vm, diskPhase, hfail, hcre, hvmA, hg, hcp]]
                at hsubs
              exact absurd hsubs (by simp)

/-- Witness for C9's amended statement: at the C6-style concrete input the
run submits nothing, and the theorem then forces `changed=false` and an
untouched VM. -/
theorem c9_empty_submission_witness :
    ((reconfigure_vm abLuns cx6p cx2vm).subs = [] ∨
     (∃ s, (reconfigure_vm abLuns cx6p cx2vm).subs = [s] ∧ s ≠ []) ∨
     (∃ s t, (reconfigure_vm abLuns cx6p cx2vm).subs = [s, t] ∧ s ≠ [])) ∧
    ((reconfigure_vm abLuns cx6p cx2vm).vm = cx2vm ∧
      ∀ bres, (reconfigure_vm abLuns cx6p cx2vm).res = .ok bres →
        bres = false) := by
  have happ := c9_empty_submission abLuns cx6p cx2vm
  exact ⟨happ.1, happ.2 rfl⟩

/-!  Support lemmas for the idempotence proof. -/

theorem mem_skFold {ctls : List Controller} :
    ∀ {acc : List (Nat × Int)} {q : Nat × Int}, q ∈ skFold ctls acc →
      q ∈ acc ∨ ∃ c ∈ ctls, q = (c.busNumber, c.key) := by
  induction ctls with
  | nil => intro acc q h; exact Or.inl h
  | cons c rest ih =>
    intro acc q h
    rcases ih h with h | h
    · rcases mem_assocSet h with h | h
      · exact Or.inl h
      · exact Or.inr ⟨c, List.mem_cons_self c rest, h⟩
    · obtain ⟨x, hx, hq⟩ := h
      exact Or.inr ⟨x, List.mem_cons_of_mem c hx, hq⟩

theorem isSome_of_any {α β : Type} [BEq α] {l : List (α × β)} {k : α}
    (h : l.any (fun p => p.1 == k) = true) : (assocGet l k).isSome = true := by
  induction l with
  | nil => simp at h
  | cons p rest ih =>
    by_cases hp : (p.1 == k) = true
    · simp [assocGet, hp]
    · have hr : rest.any (fun p => p.1 == k) = true := by simpa [hp] using h
      simp [assocGet, hp, ih hr]

/-- Platform key convention: every controller's key is `1000 + bus`. -/
def CtlsWf (ctls : List Controller) : Prop :=
  ∀ c ∈ ctls, c.key = 1000 + (c.busNumber : Int)

theorem sk_ks_roundtrip {ctls : List Controller} (hwf : CtlsWf ctls)
    {b : Nat} {k : Int} (h : assocGet (skFold ctls []) b = some k) :
    assocGet (ksFold ctls []) k = some b := by
  have hmem := assocGet_mem h
  rcases mem_skFold hmem with hmem | hmem
  · simp at hmem
  · obtain ⟨c, hc, hq⟩ := hmem
    have hb : b = c.busNumber := congrArg Prod.fst hq
    have hk : k = c.key := congrArg Prod.snd hq
    have hkey : k = 1000 + (b : Int) := by rw [hk, hwf c hc, hb]
    have hsome : (assocGet (ksFold ctls []) k).isSome = true :=
      isSome_ksFold.mpr (Or.inl ⟨c, hc, hk.symm⟩)
    obtain ⟨b', hb'⟩ := Option.isSome_iff_exists.mp hsome
    have hmem' := assocGet_mem hb'
    rcases mem_ksFold hmem' with hmem' | hmem'
    · simp at hmem'
    · obtain ⟨c', hc', hq'⟩ := hmem'
      have hk' : k = c'.key := congrArg Prod.fst hq'
      have hb2 : b' = c'.busNumber := congrArg Prod.snd hq'
      have hkey' : k = 1000 + (c'.busNumber : Int) := by rw [hk', hwf c' hc']
      have hbb : (b : Int) = (c'.busNumber : Int) := by
        have := hkey.symm.trans hkey'
        omega
      have hbn : b = c'.busNumber := by exact_mod_cast hbb
      rw [hb', hb2, ← hbn]

theorem kindName_contains (t : CtlType) : strFind t.kindName t.str = true := by
  cases t <;> decide

theorem check_fail_assocSet {search : String} {cl : List Nat}
    {acc : List (Nat × String)} {b : Nat} {v : String}
    (hacc : ctl_check_types_fail acc search cl = false)
    (hv : strFind v search = true) :
    ctl_check_types_fail (assocSet acc b v) search cl = false := by
  apply List.any_eq_false.mpr
  intro q hq
  rcases mem_assocSet hq with hq | hq
  · exact List.any_eq_false.mp hacc q hq
  · subst hq
    simp [hv]

theorem check_fail_unFold {search : String} {cl : List Nat}
    {ctls : List Controller} :
    ∀ {acc : List (Nat × String)},
    ctl_check_types_fail acc search cl = false →
    (∀ c ∈ ctls, strFind c.kind search = true) →
    ctl_check_types_fail (unFold ctls acc) search cl = false := by
  induction ctls with
  | nil => intro acc hacc _; exact hacc
  | cons c rest ih =>
    intro acc hacc hctls
    exact ih (check_fail_assocSet hacc (hctls c (List.mem_cons_self c rest)))
      (fun x hx => hctls x (List.mem_cons_of_mem c hx))

theorem applyOps_hw_path (ops : List DeviceOp) :
    ∀ vm : VmState, (applyOps vm ops).hwVersion = vm.hwVersion ∧
      (applyOps vm ops).vmPathName = vm.vmPathName := by
  induction ops with
  | nil => intro vm; exact ⟨rfl, rfl⟩
  | cons op rest ih =>
    intro vm
    have hstep : (applyOp vm op).hwVersion = vm.hwVersion ∧
        (applyOp vm op).vmPathName = vm.vmPathName := by
      cases op <;> exact ⟨rfl, rfl⟩
    obtain ⟨h1, h2⟩ := ih (applyOp vm op)
    exact ⟨h1.trans hstep.1, h2.trans hstep.2⟩

theorem applyOps_controllers (ops : List DeviceOp) :
    ∀ vm : VmState, ∃ ext,
      (applyOps vm ops).controllers = vm.controllers ++ ext ∧
      (∀ c ∈ ext, ∃ kind bus, DeviceOp.addController kind bus ∈ ops ∧
        c = ⟨bus, 1000 + (bus : Int), kind⟩) ∧
      (∀ kind bus, DeviceOp.addController kind bus ∈ ops →
        (⟨bus, 1000 + (bus : Int), kind⟩ : Controller) ∈ ext) := by
  induction ops with
  | nil => intro vm; exact ⟨[], by simp [applyOps], by simp, by simp⟩
  | cons op rest ih =>
    intro vm
    obtain ⟨ext, hctl, hext, hmem⟩ := ih (applyOp vm op)
    cases op with
    | addController kind bus =>
      refine ⟨⟨bus, 1000 + (bus : Int), kind⟩ :: ext, ?_, ?_, ?_⟩
      · rw [show applyOps vm (DeviceOp.addController kind bus :: rest) =
          applyOps (applyOp vm (DeviceOp.addController kind bus)) rest from rfl]
        rw [hctl]
        simp [applyOp]
      · intro c hc
        rcases List.mem_cons.mp hc with hc | hc
        · exact ⟨kind, bus, List.mem_cons_self _ _, hc⟩
        · obtain ⟨kind', bus', hop', hc'⟩ := hext c hc
          exact ⟨kind', bus', List.mem_cons_of_mem _ hop', hc'⟩
      · intro kind' bus' hop'
        rcases List.mem_cons.mp hop' with hop' | hop'
        · injection hop' with e1 e2
          subst e1; subst e2
          exact List.mem_cons_self _ _
        · exact List.mem_cons_of_mem _ (hmem kind' bus' hop')
    | addDisk kk k u luu dn f =>
      refine ⟨ext, ?_, ?_, ?_⟩
      · rw [show applyOps vm (DeviceOp.addDisk kk k u luu dn f :: rest) =
          applyOps (applyOp vm (DeviceOp.addDisk kk k u luu dn f)) rest from rfl]
        rw [hctl]
        rfl
      · intro c hc
        obtain ⟨kind', bus', hop', hc'⟩ := hext c hc
        exact ⟨kind', bus', List.mem_cons_of_mem _ hop', hc'⟩
      · intro kind' bus' hop'
        rcases List.mem_cons.mp hop' with hop' | hop'
        · exact absurd hop' (by simp)
        · exact hmem kind' bus' hop'
    | removeDisk key ck u =>
      refine ⟨ext, ?_, ?_, ?_⟩
      · rw [show applyOps vm (DeviceOp.removeDisk key ck u :: rest) =
          applyOps (applyOp vm (DeviceOp.removeDisk key ck u)) rest from rfl]
        rw [hctl]
        rfl
      · intro c hc
        obtain ⟨kind', bus', hop', hc'⟩ := hext c hc
        exact ⟨kind', bus', List.mem_cons_of_mem _ hop', hc'⟩
      · intro kind' bus' hop'
        rcases List.mem_cons.mp hop' with hop' | hop'
        · exact absurd hop' (by simp)
        · exact hmem kind' bus' hop'

theorem applyOps_addDisks {ops : List DeviceOp} :
    (∀ op ∈ ops, ∃ (kk k : Int) (u : Nat) (luu dn f : String),
      op = DeviceOp.addDisk kk k u luu dn f) →
    ∀ vm : VmState, (applyOps vm ops).controllers = vm.controllers ∧
      ∃ newd, (applyOps vm ops).disks = vm.disks ++ newd ∧
        newd.length = ops.length ∧
        (∀ d ∈ newd, ∃ (kk : Int) (dn f : String),
          DeviceOp.addDisk kk d.controllerKey d.unitNumber d.lunUuid dn f ∈ ops) ∧
        (∀ (kk k : Int) (u : Nat) (luu dn f : String),
          DeviceOp.addDisk kk k u luu dn f ∈ ops →
          ∃ d ∈ newd, d.controllerKey = k ∧ d.unitNumber = u ∧
            d.lunUuid = luu) := by
  induction ops with
  | nil => intro _ vm; exact ⟨rfl, [], by simp [applyOps], rfl, by simp, by simp⟩
  | cons op rest ih =>
    intro hops vm
    obtain ⟨kk, k, u, luu, dn, f, hop⟩ := hops op (List.mem_cons_self op rest)
    subst hop
    have hrest : ∀ op ∈ rest, ∃ (kk k : Int) (u : Nat) (luu dn f : String),
        op = DeviceOp.addDisk kk k u luu dn f :=
      fun x hx => hops x (List.mem_cons_of_mem _ hx)
    have hstep : applyOps vm (DeviceOp.addDisk kk k u luu dn f :: rest) =
        applyOps (applyOp vm (DeviceOp.addDisk kk k u luu dn f)) rest := rfl
    obtain ⟨hctl, newd1, hdisks, hlen, hfrom, hto⟩ :=
      ih hrest (applyOp vm (DeviceOp.addDisk kk k u luu dn f))
    rw [hstep]
    refine ⟨hctl, ⟨2000 + (vm.disks.length : Int), k, u, luu⟩ :: newd1, ?_, ?_,
      ?_, ?_⟩
    · rw [hdisks]
      simp [applyOp]
    · simp [hlen]
    · intro d hd
      rcases List.mem_cons.mp hd with hd | hd
      · subst hd
        exact ⟨kk, dn, f, List.mem_cons_self _ _⟩
      · obtain ⟨kk', dn', f', hop'⟩ := hfrom d hd
        exact ⟨kk', dn', f', List.mem_cons_of_mem _ hop'⟩
    · intro kk' k' u' luu' dn' f' hop'
      rcases List.mem_cons.mp hop' with hop' | hop'
      · injection hop' with e1 e2 e3 e4 e5 e6
        exact ⟨⟨2000 + (vm.disks.length : Int), k, u, luu⟩,
          List.mem_cons_self _ _, e2.symm, e3.symm, e4.symm⟩
      · obtain ⟨d, hd, hprops⟩ := hto kk' k' u' luu' dn' f' hop'
        exact ⟨d, List.mem_cons_of_mem _ hd, hprops⟩

theorem mem_ctl_create_new {t : CtlType} {cl : List Nat}
    {units : List (Nat × String)} {ctls : List Controller} {op : DeviceOp}
    (h : op ∈ ctl_create_new t cl units ctls) :
    ∃ bus ∈ cl, op = DeviceOp.addController t.kindName bus := by
  obtain ⟨bus, hbus, hf⟩ := List.mem_filterMap.mp h
  by_cases h1 : units.any (fun p => p.1 == bus) = true
  · simp [h1] at hf
  · by_cases h2 : ctls.any (fun c => c.busNumber == bus) = true
    · simp [h1, h2] at hf
    · simp only [h1, h2, Bool.false_eq_true, if_false] at hf
      exact ⟨bus, hbus, (Option.some.inj hf).symm⟩

theorem created_buses_covered (t : CtlType) (cl : List Nat) (vm : VmState) :
    ∀ ctl ∈ cl, ∃ c ∈ (applyOps vm (ctl_create_new t cl
        (vm_get_ctls vm.controllers).units vm.controllers)).controllers,
      c.busNumber = ctl := by
  intro ctl hctl
  obtain ⟨ext, hctls, _, hmem⟩ :=
    applyOps_controllers (ctl_create_new t cl
      (vm_get_ctls vm.controllers).units vm.controllers) vm
  by_cases h2 : vm.controllers.any (fun c => c.busNumber == ctl) = true
  · obtain ⟨c, hc, hcb⟩ := List.any_eq_true.mp h2
    exact ⟨c, by rw [hctls]; exact List.mem_append_left _ hc, by simpa using hcb⟩
  · by_cases h1 : (vm_get_ctls vm.controllers).units.any
        (fun p => p.1 == ctl) = true
    · have hsome := isSome_of_any h1
      rw [vm_get_ctls_eq] at hsome
      rcases isSome_unFold.mp hsome with ⟨c, hc, hcb⟩ | habs
      · exact ⟨c, by rw [hctls]; exact List.mem_append_left _ hc, hcb⟩
      · simp [assocGet] at habs
    · have hop : DeviceOp.addController t.kindName ctl ∈
          ctl_create_new t cl (vm_get_ctls vm.controllers).units
            vm.controllers := by
        apply List.mem_filterMap.mpr
        exact ⟨ctl, hctl, by simp [h1, h2]⟩
      have := hmem t.kindName ctl hop
      exact ⟨⟨ctl, 1000 + (ctl : Int), t.kindName⟩,
        by rw [hctls]; exact List.mem_append_right _ this, rfl⟩

theorem buildDiskUnits_append {ks : List (Int × Nat)} {l1 l2 : List RdmDisk} :
    ∀ {du du1 : SlotMap}, buildDiskUnits ks l1 du = .ok du1 →
    buildDiskUnits ks (l1 ++ l2) du = buildDiskUnits ks l2 du1 := by
  induction l1 with
  | nil =>
    intro du du1 h
    simp only [buildDiskUnits] at h
    have : du = du1 := by injection h
    rw [List.nil_append, this]
  | cons d rest ih =>
    intro du du1 h
    cases hb : assocGet ks d.controllerKey with
    | none => simp [buildDiskUnits, hb] at h
    | some bx =>
      cases ha : slotAddE du bx d.unitNumber with
      | error e => simp [buildDiskUnits, hb, ha] at h
      | ok dua =>
        have h' : buildDiskUnits ks rest dua = .ok du1 := by
          simpa [buildDiskUnits, hb, ha] using h
        rw [List.cons_append]
        simp only [buildDiskUnits, hb, ha]
        exact ih h'

theorem buildDiskUnits_duLe {ks : List (Int × Nat)} {rdms : List RdmDisk} :
    ∀ {du du' : SlotMap}, buildDiskUnits ks rdms du = .ok du' →
      duLe du du' := by
  induction rdms with
  | nil =>
    intro du du' h
    simp only [buildDiskUnits] at h
    have : du = du' := by injection h
    rw [← this]
    exact duLe_refl du
  | cons d rest ih =>
    intro du du' h
    cases hb : assocGet ks d.controllerKey with
    | none => simp [buildDiskUnits, hb] at h
    | some bx =>
      cases ha : slotAddE du bx d.unitNumber with
      | error e => simp [buildDiskUnits, hb, ha] at h
      | ok dua =>
        have h' : buildDiskUnits ks rest dua = .ok du' := by
          simpa [buildDiskUnits, hb, ha] using h
        have hdua : dua = slotAdd du bx d.unitNumber := by
          unfold slotAddE at ha
          by_cases hany : du.any (fun p => p.1 == bx) = true
          · rw [if_pos hany] at ha
            injection ha with hh
            exact hh.symm
          · rw [if_neg hany] at ha
            exact absurd ha (by simp)
        subst hdua
        exact duLe_trans (duLe_slotAdd du bx d.unitNumber) (ih h')

theorem buildDiskUnits_mark {ks : List (Int × Nat)} {rdms : List RdmDisk} :
    ∀ {du du' : SlotMap}, buildDiskUnits ks rdms du = .ok du' →
    ∀ d ∈ rdms, ∀ b, assocGet ks d.controllerKey = some b →
      occMem du' b d.unitNumber := by
  induction rdms with
  | nil => intro du du' _ d hd; simp at hd
  | cons d0 rest ih =>
    intro du du' h d hd b hb
    cases hb0 : assocGet ks d0.controllerKey with
    | none => simp [buildDiskUnits, hb0] at h
    | some bx =>
      cases ha : slotAddE du bx d0.unitNumber with
      | error e => simp [buildDiskUnits, hb0, ha] at h
      | ok dua =>
        have h' : buildDiskUnits ks rest dua = .ok du' := by
          simpa [buildDiskUnits, hb0, ha] using h
        have hdua : dua = slotAdd du bx d0.unitNumber := by
          unfold slotAddE at ha
          by_cases hany : du.any (fun p => p.1 == bx) = true
          · rw [if_pos hany] at ha
            injection ha with hh
            exact hh.symm
          · rw [if_neg hany] at ha
            exact absurd ha (by simp)
        subst hdua
        rcases List.mem_cons.mp hd with hd | hd
        · subst hd
          have hbb : bx = b := by
            rw [hb0] at hb
            injection hb
          subst hbb
          have hocc : ∃ occ, assocGet du bx = some occ := by
            unfold slotAddE at ha
            by_cases hany : du.any (fun p => p.1 == bx) = true
            · obtain ⟨v, hv⟩ := Option.isSome_iff_exists.mp (isSome_of_any hany)
              exact ⟨v, hv⟩
            · rw [if_neg hany] at ha
              exact absurd ha (by simp)
          obtain ⟨occ, hocc⟩ := hocc
          have hm : occMem (slotAdd du bx d.unitNumber) bx d.unitNumber :=
            ⟨d.unitNumber :: occ, assocGet_slotAdd_self hocc,
              List.mem_cons_self _ _⟩
          obtain ⟨occ1, hg1, hv1⟩ := hm
          obtain ⟨occ2, hg2, hsub⟩ := buildDiskUnits_duLe h' bx occ1 hg1
          exact ⟨occ2, hg2, hsub _ hv1⟩
        · exact ih h' d hd b hb

theorem buildDiskUnits_ok_forall {ks : List (Int × Nat)} {rdms : List RdmDisk} :
    ∀ {du du' : SlotMap}, buildDiskUnits ks rdms du = .ok du' →
    ∀ d ∈ rdms, ∃ b, assocGet ks d.controllerKey = some b ∧
      (assocGet du b).isSome = true := by
  induction rdms with
  | nil => intro du du' _ d hd; simp at hd
  | cons d0 rest ih =>
    intro du du' h d hd
    cases hb0 : assocGet ks d0.controllerKey with
    | none => simp [buildDiskUnits, hb0] at h
    | some bx =>
      cases ha : slotAddE du bx d0.unitNumber with
      | error e => simp [buildDiskUnits, hb0, ha] at h
      | ok dua =>
        have h' : buildDiskUnits ks rest dua = .ok du' := by
          simpa [buildDiskUnits, hb0, ha] using h
        have hdua : dua = slotAdd du bx d0.unitNumber := by
          unfold slotAddE at ha
          by_cases hany : du.any (fun p => p.1 == bx) = true
          · rw [if_pos hany] at ha
            injection ha with hh
            exact hh.symm
          · rw [if_neg hany] at ha
            exact absurd ha (by simp)
        have hsome : (assocGet du bx).isSome = true := by
          unfold slotAddE at ha
          by_cases hany : du.any (fun p => p.1 == bx) = true
          · exact isSome_of_any hany
          · rw [if_neg hany] at ha
            exact absurd ha (by simp)
        rcases List.mem_cons.mp hd with hd | hd
        · subst hd
          exact ⟨bx, hb0, hsome⟩
        · obtain ⟨b, hb, hbs⟩ := ih h' d hd
          subst hdua
          rw [isSome_assocGet_slotAdd] at hbs
          exact ⟨b, hb, hbs⟩

theorem get_rdm_info_ok_inv {cmax : Nat} {state : RdmState} {ctlList : List Nat}
    {units : List (Nat × String)} {ks : List (Int × Nat)} {rdms : List RdmDisk}
    {requested : List String} {du : SlotMap}
    (h : get_rdm_info cmax state ctlList units ks rdms requested = .ok du) :
    buildDiskUnits ks rdms (units.map (fun p => (p.1, [7]))) = .ok du ∧
    ¬((rdms.length : Int) +
        ((requested.length : Int) - wwidPresentedCount rdms requested) >
      (cmax : Int) * ctlList.length ∧ state = RdmState.present) := by
  cases hb : buildDiskUnits ks rdms (units.map (fun p => (p.1, [7]))) with
  | error e => simp [get_rdm_info, hb] at h
  | ok du0 =>
    simp only [get_rdm_info, hb] at h
    split_ifs at h with hc
    have hdu : du0 = du := by injection h
    subst hdu
    exact ⟨rfl, hc⟩

theorem unFold_append {l1 l2 : List Controller} {acc : List (Nat × String)} :
    unFold (l1 ++ l2) acc = unFold l2 (unFold l1 acc) := by
  simp [unFold, List.foldl_append]

/-- The core of the idempotence argument: after a successful present-mode
disk phase on `vmA` whose change set `ds` has been applied, a fresh
present-mode run on the resulting VM validates, creates nothing, passes the
capacity check, skips every WWID (or silently exhausts again), submits
nothing and reports no change. -/
theorem run2_noop (luns : List Lun) (ct : CtlType) (cl : List Nat)
    (rd : List String) (vmA : VmState) (cmax : Nat) (cd0 : Bool)
    (hwfA : CtlsWf vmA.controllers)
    (hcheckA : ctl_check_types_fail (vm_get_ctls vmA.controllers).units
      ct.str cl = false)
    (hcover : ∀ ctl ∈ cl, ∃ c ∈ vmA.controllers, c.busNumber = ctl)
    (hcmax : check_maximums vmA.hwVersion ct = cmax)
    (huuid : ∀ w ∈ rd, ∀ l, resolveLun luns w = some l →
      strFind (lowerStr l.uuid) (lowerStr w) = true)
    {duA du1 : SlotMap} {ds : List DeviceOp} {cdf : Bool}
    (hga : get_rdm_info cmax RdmState.present cl
      (vm_get_ctls vmA.controllers).units (vm_get_ctls vmA.controllers).keySlot
      vmA.disks rd = .ok duA)
    (hcp : configure_present luns vmA.vmPathName cl cmax
      (vm_get_ctls vmA.controllers).slotKey vmA.disks rd duA [] cd0 =
      .ok (du1, ds, cdf)) :
    reconfigure_vm luns ⟨.present, ct, cl, rd⟩ (applyOps vmA ds) =
      ⟨.ok false, [], applyOps vmA ds⟩ := by
  obtain ⟨suffix, hsp, hch, hleA, hsomeA, hops, hmarks, hall⟩ :=
    configure_present_master hcp
  rw [List.nil_append] at hsp
  subst hsp
  have hopsAdd : ∀ op ∈ ds, ∃ (kk k : Int) (u : Nat) (luu dn f : String),
      op = DeviceOp.addDisk kk k u luu dn f := by
    intro op hop
    obtain ⟨w, _, l, _, k, u, dn, f, hope, _⟩ := hops op hop
    exact ⟨-100 - (u : Int), k, u, l.uuid, dn, f, hope⟩
  obtain ⟨hctlB, newd, hdisksB, hlenB, hfromB, htoB⟩ :=
    applyOps_addDisks hopsAdd vmA
  obtain ⟨hhwB, hpathB⟩ := applyOps_hw_path ds vmA
  set vmB := applyOps vmA ds with hvmB
  have hinvB : vm_get_ctls vmB.controllers = vm_get_ctls vmA.controllers := by
    rw [hctlB]
  obtain ⟨hbuildA, hnofail1⟩ := get_rdm_info_ok_inv hga
  -- a reserved slot key always round-trips through the two indices
  have hround : ∀ {b : Nat} {k : Int},
      assocGet (vm_get_ctls vmA.controllers).slotKey b = some k →
      assocGet (vm_get_ctls vmA.controllers).keySlot k = some b ∧
      (assocGet ((vm_get_ctls vmA.controllers).units.map
        (fun q => (q.1, ([7] : List Nat)))) b).isSome = true := by
    intro b k hk
    rw [vm_get_ctls_eq] at hk ⊢
    refine ⟨sk_ks_roundtrip hwfA hk, ?_⟩
    rw [isSome_assocGet_mapSeven]
    have hmem := assocGet_mem hk
    rcases mem_skFold hmem with hmem | hmem
    · simp at hmem
    · obtain ⟨c, hc, hq⟩ := hmem
      have hb : b = c.busNumber := congrArg Prod.fst hq
      exact isSome_unFold.mpr (Or.inl ⟨c, hc, hb.symm⟩)
  -- characterisation of the new disks through the ops they came from
  have hnewd : ∀ d ∈ newd, ∃ w ∈ rd, ∃ l, resolveLun luns w = some l ∧
      d.lunUuid = l.uuid ∧
      ∃ b, assocGet (vm_get_ctls vmA.controllers).slotKey b =
        some d.controllerKey := by
    intro d hd
    obtain ⟨kk, dn, f, hop⟩ := hfromB d hd
    obtain ⟨w, hw, l, hl, k, u, dn', f', hope, b, hk, hocc⟩ :=
      hops _ hop
    have h0 := hope
    rw [DeviceOp.addDisk.injEq] at h0
    obtain ⟨-, e2, -, e4, -, -⟩ := h0
    refine ⟨w, hw, l, hl, e4, b, ?_⟩
    rw [e2]
    exact hk
  have hwf2 : ∀ d ∈ vmB.disks, ∃ b,
      assocGet (vm_get_ctls vmA.controllers).keySlot d.controllerKey = some b ∧
      (assocGet ((vm_get_ctls vmA.controllers).units.map
        (fun q => (q.1, ([7] : List Nat)))) b).isSome = true := by
    rw [hdisksB]
    intro d hd
    rcases List.mem_append.mp hd with hd | hd
    · exact buildDiskUnits_ok_forall hbuildA d hd
    · obtain ⟨w, hw, l, hl, hdl, b, hk⟩ := hnewd d hd
      obtain ⟨hks, hsome⟩ := hround hk
      exact ⟨b, hks, hsome⟩
  obtain ⟨du2, hbuild2⟩ := buildDiskUnits_total hwf2
  have hbuild2app : buildDiskUnits (vm_get_ctls vmA.controllers).keySlot
      (vmA.disks ++ newd) ((vm_get_ctls vmA.controllers).units.map
        (fun q => (q.1, ([7] : List Nat)))) = .ok du2 := by
    rw [← hdisksB]
    exact hbuild2
  have happ := @buildDiskUnits_append _ _ newd _ _ hbuildA
  have hbuild2' : buildDiskUnits (vm_get_ctls vmA.controllers).keySlot newd
      duA = .ok du2 := by
    rw [← happ]
    exact hbuild2app
  -- the new disks all count as presented in the second capacity check
  have hnewmatch : ∀ d ∈ newd, diskMatchesSome rd d = true := by
    intro d hd
    obtain ⟨w, hw, l, hl, hdl, _⟩ := hnewd d hd
    unfold diskMatchesSome
    apply List.any_eq_true.mpr
    refine ⟨w, hw, ?_⟩
    rw [hdl]
    exact huuid w hw l hl
  have hP2 : wwidPresentedCount (vmA.disks ++ newd) rd =
      wwidPresentedCount vmA.disks rd + newd.length := by
    unfold wwidPresentedCount
    rw [List.countP_append]
    congr 1
    exact List.countP_eq_length.mpr hnewmatch
  have hnot2 : ¬(((vmA.disks ++ newd).length : Int) +
      ((rd.length : Int) - wwidPresentedCount (vmA.disks ++ newd) rd) >
        (cmax : Int) * cl.length ∧
      RdmState.present = RdmState.present) := by
    rintro ⟨hgt, -⟩
    apply hnofail1
    refine ⟨?_, rfl⟩
    rw [hP2, List.length_append] at hgt
    push_cast at hgt ⊢
    linarith
  have hga2 : get_rdm_info cmax RdmState.present cl
      (vm_get_ctls vmA.controllers).units (vm_get_ctls vmA.controllers).keySlot
      vmB.disks rd = .ok du2 := by
    rw [hdisksB]
    simp only [get_rdm_info, hbuild2app]
    split_ifs with hc
    · exact absurd ⟨hc.1, rfl⟩ hnot2
    · rfl
  -- occupancy growth from the first run's final map into the second run's map
  have hle12 : duLe du1 du2 := by
    intro b occ1 hg1
    have hsome1 : (assocGet du1 b).isSome = true := by rw [hg1]; rfl
    have hsomeA0 : (assocGet duA b).isSome = true := by
      rw [← hsomeA b]; exact hsome1
    have hsome2 : (assocGet du2 b).isSome = true := by
      rw [buildDiskUnits_isSome hbuild2' b]
      exact hsomeA0
    obtain ⟨occ2, hg2⟩ := Option.isSome_iff_exists.mp hsome2
    refine ⟨occ2, hg2, ?_⟩
    intro v hv
    have hm1 : occMem du1 b v := ⟨occ1, hg1, hv⟩
    have hm2 : occMem du2 b v := by
      rcases hmarks b v hm1 with hmA | ⟨op, hop, k, u, dn, f, luu, hope, hvu, hk⟩
      · obtain ⟨occA, hgA, hvA⟩ := hmA
        obtain ⟨occ2', hg2', hsub⟩ := buildDiskUnits_duLe hbuild2' b occA hgA
        exact ⟨occ2', hg2', hsub v hvA⟩
      · obtain ⟨d, hd, hdk, hdu, hdl⟩ := htoB (-100 - (u : Int)) k u luu dn f
          (by rw [← hope]; exact hop)
        have hks : assocGet (vm_get_ctls vmA.controllers).keySlot
            d.controllerKey = some b := by
          rw [hdk]
          exact (hround hk).1
        have := buildDiskUnits_mark hbuild2' d hd b hks
        rw [hdu] at this
        rw [hvu]
        exact this
    obtain ⟨occ2', hg2', hv2⟩ := hm2
    rw [hg2] at hg2'
    have heq : occ2' = occ2 := by
      injection hg2' with h
      exact h.symm
    rw [← heq]
    exact hv2
  -- the second attach loop is an exact no-op
  have hnoop : configure_present luns vmA.vmPathName cl cmax
      (vm_get_ctls vmA.controllers).slotKey vmB.disks rd du2 [] false =
      .ok (du2, [], false) := by
    apply configure_present_noop
    intro w hw
    obtain ⟨l, hl, hdisj⟩ := hall w hw
    refine ⟨l, hl, ?_⟩
    rcases hdisj with hd | hd | hd
    · obtain ⟨d, hdm, hdl⟩ := hd
      exact Or.inl ⟨d, by rw [hdisksB]; exact List.mem_append_left _ hdm, hdl⟩
    · obtain ⟨op, hop, k, u, dn, f, hope⟩ := hd
      obtain ⟨d, hdm, hdk, hdu, hdl⟩ := htoB (-100 - (u : Int)) k u l.uuid dn f
        (by rw [← hope]; exact hop)
      exact Or.inl ⟨d, by rw [hdisksB]; exact List.mem_append_right _ hdm, hdl⟩
    · exact Or.inr ⟨scanSlots_none_mono hd.1 hle12, hd.2⟩
  -- second-run controller creation is empty
  have hcreA : ctl_create_new ct cl (vm_get_ctls vmA.controllers).units
      vmA.controllers = [] := by
    unfold ctl_create_new
    apply List.filterMap_eq_nil_iff.mpr
    intro ctl hctl
    obtain ⟨c, hc, hcb⟩ := hcover ctl hctl
    have hsome : (assocGet (vm_get_ctls vmA.controllers).units ctl).isSome
        = true := by
      rw [vm_get_ctls_eq]
      exact isSome_unFold.mpr (Or.inl ⟨c, hc, hcb⟩)
    obtain ⟨v, hv⟩ := Option.isSome_iff_exists.mp hsome
    have hany := assocGet_any hv
    simp [hany]
  -- assemble the second run
  simp [reconfigure_vm, diskPhase, hcmax, hhwB, hctlB, hpathB, hcheckA,
    hcreA, hga2, hnoop]

/-- C5 (amended): running `present` twice is idempotent whenever every
requested WWID is contained, case-insensitively, in the UUID of the host
LUN it resolves to (as holds for real VMware canonical LUN UUIDs) and the
VM's controllers carry the platform key convention. After a successful
first run, the second run submits no change set, reports `changed = false`,
and leaves the VM state untouched: each requested LUN already attached as
an RDM disk is skipped. -/
theorem c5_present_idempotent (luns : List Lun) (p : Params) (vm0 : VmState)
    (hs : p.state = RdmState.present)
    (hwfk : CtlsWf vm0.controllers)
    (ch1 : Bool)
    (hrun1 : (reconfigure_vm luns p vm0).res = .ok ch1)
    (huuid : ∀ w ∈ p.rdmDisk, ∀ l, resolveLun luns w = some l →
      strFind (lowerStr l.uuid) (lowerStr w) = true) :
    reconfigure_vm luns p (reconfigure_vm luns p vm0).vm =
      ⟨.ok false, [], (reconfigure_vm luns p vm0).vm⟩ := by
  obtain ⟨st, ct, cl, rd⟩ := p
  replace hs : st = RdmState.present := hs
  subst hs
  replace huuid : ∀ w ∈ rd, ∀ l, resolveLun luns w = some l →
      strFind (lowerStr l.uuid) (lowerStr w) = true := huuid
  cases hfail : ctl_check_types_fail (vm_get_ctls vm0.controllers).units
      ct.str cl with
  | true =>
    have hres : (reconfigure_vm luns ⟨RdmState.present, ct, cl, rd⟩ vm0).res =
        .error ctlTypeMsg := by
      simp [reconfigure_vm, hfail]
    rw [hres] at hrun1
    exact absurd hrun1 (by simp)
  | false =>
    cases hcre : (ctl_create_new ct cl (vm_get_ctls vm0.controllers).units
        vm0.controllers).isEmpty with
    | true =>
      have hcreNil : ctl_create_new ct cl (vm_get_ctls vm0.controllers).units
          vm0.controllers = [] := by
        cases hE : ctl_create_new ct cl (vm_get_ctls vm0.controllers).units
            vm0.controllers with
        | nil => rfl
        | cons a t =>
          rw [hE] at hcre
          simp [List.isEmpty] at hcre
      have hcover : ∀ ctl ∈ cl, ∃ c ∈ vm0.controllers, c.busNumber = ctl := by
        have h0 := created_buses_covered ct cl vm0
        rw [hcreNil] at h0
        simpa [applyOps] using h0
      have hrw : reconfigure_vm luns ⟨RdmState.present, ct, cl, rd⟩ vm0 =
          diskPhase luns ⟨RdmState.present, ct, cl, rd⟩
            (check_maximums vm0.hwVersion ct) vm0 (vm_get_ctls vm0.controllers)
            false false [] := by
        simp [reconfigure_vm, hfail, hcre]
      rw [hrw] at hrun1 ⊢
      cases hga : get_rdm_info (check_maximums vm0.hwVersion ct)
          RdmState.present cl (vm_get_ctls vm0.controllers).units
          (vm_get_ctls vm0.controllers).keySlot vm0.disks rd with
      | error e => simp [diskPhase, hga] at hrun1
      | ok duA =>
        cases hcp : configure_present luns vm0.vmPathName cl
            (check_maximums vm0.hwVersion ct)
            (vm_get_ctls vm0.controllers).slotKey vm0.disks rd duA [] false with
        | error e => simp [diskPhase, hga, hcp] at hrun1
        | ok trip =>
          obtain ⟨du1, ds, cdf⟩ := trip
          have hvmEq : (diskPhase luns ⟨RdmState.present, ct, cl, rd⟩
              (check_maximums vm0.hwVersion ct) vm0
              (vm_get_ctls vm0.controllers) false false []).vm =
              applyOps vm0 ds := by
            obtain ⟨suffix, hsp, hch, -, -, -, -, -⟩ :=
              configure_present_master hcp
            rw [List.nil_append] at hsp
            subst hsp
            cases hcdf : cdf with
            | true => simp [diskPhase, hga, hcp, hcdf]
            | false =>
              have hes : ds.isEmpty = true := by
                rw [hcdf] at hch
                simpa using hch.symm
              have hse : ds = [] := by
                cases hD : ds with
                | nil => rfl
                | cons a t =>
                  rw [hD] at hes
                  simp [List.isEmpty] at hes
              subst hse
              simp [diskPhase, hga, hcp, hcdf, applyOps]
          rw [hvmEq]
          exact run2_noop luns ct cl rd vm0 (check_maximums vm0.hwVersion ct)
            false hwfk hfail hcover rfl huuid hga hcp
    | false =>
      set creA := ctl_create_new ct cl (vm_get_ctls vm0.controllers).units
        vm0.controllers with hcreEq
      obtain ⟨ext, hctlA, hextchar, -⟩ := applyOps_controllers creA vm0
      have hwfA : CtlsWf (applyOps vm0 creA).controllers := by
        intro c hc
        rw [hctlA] at hc
        rcases List.mem_append.mp hc with hc | hc
        · exact hwfk c hc
        · obtain ⟨kind, bus, hop, hceq⟩ := hextchar c hc
          subst hceq
          rfl
      have hkinds : ∀ c ∈ ext, strFind c.kind ct.str = true := by
        intro c hc
        obtain ⟨kind, bus, hop, hceq⟩ := hextchar c hc
        rw [hcreEq] at hop
        obtain ⟨bus2, hbus2, hopeq⟩ := mem_ctl_create_new hop
        rw [DeviceOp.addController.injEq] at hopeq
        obtain ⟨h1, -⟩ := hopeq
        subst hceq
        show strFind kind ct.str = true
        rw [h1]
        exact kindName_contains ct
      have hcheckA : ctl_check_types_fail
          (vm_get_ctls (applyOps vm0 creA).controllers).units ct.str cl
          = false := by
        have hacc : ctl_check_types_fail (unFold vm0.controllers []) ct.str cl
            = false := by
          have h0 := hfail
          rw [vm_get_ctls_eq] at h0
          exact h0
        have h1 : ctl_check_types_fail (unFold (vm0.controllers ++ ext) [])
            ct.str cl = false := by
          rw [unFold_append]
          exact check_fail_unFold hacc hkinds
        rw [vm_get_ctls_eq]
        show ctl_check_types_fail (unFold (applyOps vm0 creA).controllers [])
          ct.str cl = false
        rw [hctlA]
        exact h1
      have hcover := created_buses_covered ct cl vm0
      rw [← hcreEq] at hcover
      have hcmaxA : check_maximums (applyOps vm0 creA).hwVersion ct =
          check_maximums vm0.hwVersion ct := by
        rw [(applyOps_hw_path creA vm0).1]
      have hrw : reconfigure_vm luns ⟨RdmState.present, ct, cl, rd⟩ vm0 =
          diskPhase luns ⟨RdmState.present, ct, cl, rd⟩
            (check_maximums vm0.hwVersion ct) (applyOps vm0 creA)
            (vm_get_ctls (applyOps vm0 creA).controllers) true true [creA] := by
        simp [reconfigure_vm, hfail, ← hcreEq, hcre]
      rw [hrw] at hrun1 ⊢
      cases hga : get_rdm_info (check_maximums vm0.hwVersion ct)
          RdmState.present cl
          (vm_get_ctls (applyOps vm0 creA).controllers).units
          (vm_get_ctls (applyOps vm0 creA).controllers).keySlot
          (applyOps vm0 creA).disks rd with
      | error e => simp [diskPhase, hga] at hrun1
      | ok duA =>
        cases hcp : configure_present luns (applyOps vm0 creA).vmPathName cl
            (check_maximums vm0.hwVersion ct)
            (vm_get_ctls (applyOps vm0 creA).controllers).slotKey
            (applyOps vm0 creA).disks rd duA [] true with
        | error e => simp [diskPhase, hga, hcp] at hrun1
        | ok trip =>
          obtain ⟨du1, ds, cdf⟩ := trip
          have hcdf : cdf = true := by
            obtain ⟨suffix, -, hch, -, -, -, -, -⟩ :=
              configure_present_master hcp
            rw [hch]
            rfl
          have hvmEq : (diskPhase luns ⟨RdmState.present, ct, cl, rd⟩
              (check_maximums vm0.hwVersion ct) (applyOps vm0 creA)
              (vm_get_ctls (applyOps vm0 creA).controllers) true true
              [creA]).vm = applyOps (applyOps vm0 creA) ds := by
            simp [diskPhase, hga, hcp, hcdf]
          rw [hvmEq]
          exact run2_noop luns ct cl rd (applyOps vm0 creA)
            (check_maximums vm0.hwVersion ct) true hwfA hcheckA hcover hcmaxA
            huuid hga hcp

/-- Witness for C5's amended statement: the first run attaches WWID
`a0000b` (host LUN UUID `xa0000b`, which contains it); the second run is an
exact no-op. -/
theorem c5_present_idempotent_witness :
    reconfigure_vm cw5luns cx5p (reconfigure_vm cw5luns cx5p cx5vm).vm =
      ⟨.ok false, [], (reconfigure_vm cw5luns cx5p cx5vm).vm⟩ :=
  c5_present_idempotent cw5luns cx5p cx5vm rfl
    (by
      intro c hc
      have hc0 : c = pvCtl0 := by simpa [cx5vm] using hc
      subst hc0
      decide)
    true rfl
    (by
      intro w hw l hl
      have hww : w = "a0000b" := by simpa [cx5p] using hw
      subst hww
      have hl0 : resolveLun cw5luns "a0000b" =
          some ⟨"naa.a0000b", "xa0000b", "dn"⟩ := by decide
      rw [hl0] at hl
      injection hl with hle
      subst hle
      decide)

end Rdm
